import Mathlib

/-!
# madpose: hybrid shared-focal pose estimator and refiner

A shallow embedding of

* `src/src/utils.h`: `to_essential_matrix`, `compute_sampson_error`,
  `NormalizeQuaternion`, `QuaternionToRotationMatrix`, `RotationMatrixToQuaternion`;
* `src/hybrid_pose_shared_focal_estimator.h`: the sample-size declarations of
  `HybridPoseSharedFocalEstimator` and `HybridPoseSharedFocalEstimator3`, the delegating
  `HybridPoseSharedFocalEstimator3::MinimalSolver`, and the refiner `SharedFocalOptimizer3`
  (constructor, `SetUp`, `Solve`, `GetSolution`).

Conventions of the embedding.

* `double` (and the template scalar `T`) is a field `α` with exact arithmetic; the square root
  is a parameter `sqrt : α → α`, instantiated with `Real.sqrt` where a claim needs its
  properties.  Rounding is not modelled, and neither is the value of a division by zero
  (an infinity or a NaN for `double`): no theorem relies on it.
* Eigen fixed-size vectors and matrices are `Fin n → α` and `Matrix (Fin 3) (Fin 3) α`.
  A dynamic Eigen vector is a `List α`, a `3 × N` matrix the `List` of its columns; a
  coefficient or column access with an `int` index outside `[0, size)` fails (`none`).
* The members that `SetUp` hands to Ceres by address are named by `ParameterBlock`.
* The Ceres problem is a record of what the calls of `SetUp` register; a Ceres call that
  aborts on a parameter block unknown to the problem returns `none`.  The minimiser itself is
  a parameter (`CeresSolver`).
-/

namespace madpose

variable {α L PO SO S β : Type}

/-! ## utils.h -/

/-- Embeds `to_essential_matrix(R, t)`: the matrix written with `<<` row by row, times `R`. -/
def to_essential_matrix [CommRing α] (R : Matrix (Fin 3) (Fin 3) α) (t : Fin 3 → α) :
    Matrix (Fin 3) (Fin 3) α :=
  let E : Matrix (Fin 3) (Fin 3) α :=
    !![0, -t 2, t 1;
       t 2, 0, -t 0;
       -t 1, t 0, 0]
  let E := E * R
  E

/-- Embeds `compute_sampson_error(x1, x2, E)`, with the hand-expanded products of the source. -/
def compute_sampson_error [Field α] (x1 x2 : Fin 2 → α) (E : Matrix (Fin 3) (Fin 3) α) : α :=
  let Ex1_0 := E 0 0 * x1 0 + E 0 1 * x1 1 + E 0 2
  let Ex1_1 := E 1 0 * x1 0 + E 1 1 * x1 1 + E 1 2
  let Ex1_2 := E 2 0 * x1 0 + E 2 1 * x1 1 + E 2 2
  let Ex2_0 := E 0 0 * x2 0 + E 1 0 * x2 1 + E 2 0
  let Ex2_1 := E 0 1 * x2 0 + E 1 1 * x2 1 + E 2 1
  let C := x2 0 * Ex1_0 + x2 1 * Ex1_1 + Ex1_2
  let Cx := Ex1_0 * Ex1_0 + Ex1_1 * Ex1_1
  let Cy := Ex2_0 * Ex2_0 + Ex2_1 * Ex2_1
  let r2 := C * C / (Cx + Cy)
  r2

/-- Eigen `squaredNorm()` of a 4-vector. -/
def squaredNorm [Mul α] [Add α] (v : Fin 4 → α) : α :=
  v 0 * v 0 + v 1 * v 1 + v 2 * v 2 + v 3 * v 3

/-- Eigen `norm()` of a 4-vector: the square root of `squaredNorm()`. -/
def norm [Mul α] [Add α] (sqrt : α → α) (v : Fin 4 → α) : α :=
  sqrt (squaredNorm v)

/-- Eigen `Quaternion(w, x, y, z).toRotationMatrix()`. -/
def toRotationMatrix [CommRing α] (w x y z : α) : Matrix (Fin 3) (Fin 3) α :=
  let tx := 2 * x
  let ty := 2 * y
  let tz := 2 * z
  let twx := tx * w
  let twy := ty * w
  let twz := tz * w
  let txx := tx * x
  let txy := ty * x
  let txz := tz * x
  let tyy := ty * y
  let tyz := tz * y
  let tzz := tz * z
  !![1 - (tyy + tzz), txy - twz, txz + twy;
     txy + twz, 1 - (txx + tzz), tyz - twx;
     txz - twy, tyz + twx, 1 - (txx + tyy)]

/-- Eigen `Quaternion(mat)`: the quaternion of a 3x3 matrix, returned as `(w, x, y, z)`.
The coefficient array of Eigen is `(x, y, z, w)`, so the index `i` of the largest diagonal
entry selects among `x, y, z`. -/
def quaternionFromMatrix [LinearOrderedField α] (sqrt : α → α)
    (mat : Matrix (Fin 3) (Fin 3) α) : Fin 4 → α :=
  let t := mat 0 0 + mat 1 1 + mat 2 2
  if t > 0 then
    let t := sqrt (t + 1)
    let w := (1 / 2) * t
    let t := (1 / 2) / t
    let x := (mat 2 1 - mat 1 2) * t
    let y := (mat 0 2 - mat 2 0) * t
    let z := (mat 1 0 - mat 0 1) * t
    ![w, x, y, z]
  else
    let i : Fin 3 := 0
    let i : Fin 3 := if mat 1 1 > mat 0 0 then 1 else i
    let i : Fin 3 := if mat 2 2 > mat i i then 2 else i
    let j : Fin 3 := i + 1
    let k : Fin 3 := j + 1
    let t := sqrt (mat i i - mat j j - mat k k + 1)
    let ci := (1 / 2) * t
    let t := (1 / 2) / t
    let w := (mat k j - mat j k) * t
    let cj := (mat j i + mat i j) * t
    let ck := (mat k i + mat i k) * t
    let coeffs : Fin 3 → α := fun n => if n = i then ci else if n = j then cj else ck
    ![w, coeffs 0, coeffs 1, coeffs 2]

/-- Embeds `NormalizeQuaternion(qvec)`. -/
def NormalizeQuaternion [Field α] [DecidableEq α] (sqrt : α → α) (qvec : Fin 4 → α) :
    Fin 4 → α :=
  let n := norm sqrt qvec
  if n = 0 then
    ![1, qvec 1, qvec 2, qvec 3]
  else
    fun i => qvec i / n

/-- Embeds `QuaternionToRotationMatrix(qvec)`. -/
def QuaternionToRotationMatrix [Field α] [DecidableEq α] (sqrt : α → α) (qvec : Fin 4 → α) :
    Matrix (Fin 3) (Fin 3) α :=
  let normalized_qvec := NormalizeQuaternion sqrt qvec
  toRotationMatrix (normalized_qvec 0) (normalized_qvec 1) (normalized_qvec 2)
    (normalized_qvec 3)

/-- Embeds `RotationMatrixToQuaternion(R)`. -/
def RotationMatrixToQuaternion [LinearOrderedField α] (sqrt : α → α)
    (R : Matrix (Fin 3) (Fin 3) α) : Fin 4 → α :=
  let q := quaternionFromMatrix sqrt R
  ![q 0, q 1, q 2, q 3]

/-! ## The claims' own words about utils.h -/

/-- The cross-product matrix of `t`: column `j` is `t × e_j`. -/
def crossMatrixSpec [CommRing α] (t : Fin 3 → α) : Matrix (Fin 3) (Fin 3) α :=
  Matrix.of fun i j => (crossProduct t (Pi.single j 1)) i

/-- A 2D point as a homogeneous vector with third coordinate one. -/
def homogeneous [One α] (x : Fin 2 → α) : Fin 3 → α := ![x 0, x 1, 1]

/-- The first-order Sampson distance in matrix form: the squared epipolar constraint over
the squared norms of the first two components of the two epipolar lines. -/
def sampsonDistanceSpec [Field α] (x1 x2 : Fin 2 → α) (E : Matrix (Fin 3) (Fin 3) α) : α :=
  let l1 := E.mulVec (homogeneous x1)
  let l2 := E.transpose.mulVec (homogeneous x2)
  (Matrix.dotProduct (homogeneous x2) l1) ^ 2 /
    ((l1 0) ^ 2 + (l1 1) ^ 2 + (l2 0) ^ 2 + (l2 1) ^ 2)

/-- A proper rotation: orthonormal with determinant one. -/
def IsProperRotation [CommRing α] (R : Matrix (Fin 3) (Fin 3) α) : Prop :=
  R.transpose * R = 1 ∧ R.det = 1

/-! ## pose.h and optimizer.h: records used by the estimator header -/

/-- Modelled from the spec: the pose record `PoseScaleOffsetSharedFocal` (pose.h is not among
the sources): rotation matrix, translation, depth scale, the two depth offsets and the shared
focal length, built by `PoseScaleOffsetSharedFocal(R, t, scale, offset0, offset1, focal)` and
read back through `R()`, `t()` and the public scalars. -/
structure PoseScaleOffsetSharedFocal (α : Type) where
  R : Matrix (Fin 3) (Fin 3) α
  t : Fin 3 → α
  scale : α
  offset0 : α
  offset1 : α
  focal : α

/-- Embeds `ceres::LinearSolverType`, as far as `Solve` names it. -/
inductive LinearSolverType where
  | DENSE_QR
  | other (code : Nat)
  deriving DecidableEq, Repr

/-- Embeds `ceres::Solver::Options`: the two fields `Solve` overwrites, and the others. -/
structure SolverOptions (SO : Type) where
  linear_solver_type : LinearSolverType
  num_threads : Int
  others : SO

/-- Modelled from the spec: the configuration record `SharedFocalOptimizerConfig`
(optimizer.h is not among the sources), with the fields the refiner reads: the two toggles of
the residual families, the freeze-pose flag, the epipolar weight, the three robust-loss
selectors (absent: null pointer) and the Ceres option records. -/
structure SharedFocalOptimizerConfig (α L PO SO : Type) where
  use_reprojection : Bool
  use_sampson : Bool
  constant_pose : Bool
  weight_sampson : α
  geom_loss_function : Option L
  reproj_loss_function : Option L
  sampson_loss_function : Option L
  problem_options : PO
  solver_options : SolverOptions SO

/-! ## Estimator facade -/

/-- Members of `HybridPoseSharedFocalEstimator`. -/
structure HybridPoseSharedFocalEstimator (α : Type) where
  x0_norm_ : List (Fin 3 → α)
  x1_norm_ : List (Fin 3 → α)
  d0_ : List α
  d1_ : List α
  min_depth_ : Fin 2 → α
  uncert_weight_ : List α
  sampson_squared_weight_ : α
  squared_inlier_thresholds_ : List α
  norm_scale_ : α

/-- The derived class `HybridPoseSharedFocalEstimator3` adds no member. -/
structure HybridPoseSharedFocalEstimator3 (α : Type) extends
    HybridPoseSharedFocalEstimator α

/-- Embeds `std::vector::resize(n)`: keep the first `n` entries, pad with value-initialised ones. -/
def resize (v : List β) (n : Nat) (dflt : β) : List β :=
  v.take n ++ List.replicate (n - v.length) dflt

/-- Embeds `v.at(i) = x`: bounds-checked write. -/
def setAt (v : List β) (i : Nat) (x : β) : Option (List β) :=
  if i < v.length then some (v.set i x) else none

namespace HybridPoseSharedFocalEstimator

/-- Embeds `num_minimal_solvers()`. -/
def num_minimal_solvers (_e : HybridPoseSharedFocalEstimator α) : Int := 2

/-- Embeds `min_sample_size()`. -/
def min_sample_size (_e : HybridPoseSharedFocalEstimator α) : Int := 6

/-- Embeds `min_sample_sizes(&v)`: the vector after the call. -/
def min_sample_sizes (_e : HybridPoseSharedFocalEstimator α)
    (min_sample_sizes : List (List Int)) : Option (List (List Int)) := do
  let v := resize min_sample_sizes 2 []
  let v ← setAt v 0 [4, 0]
  let v ← setAt v 1 [0, 6]
  pure v

/-- Embeds `num_data_types()`. -/
def num_data_types (_e : HybridPoseSharedFocalEstimator α) : Int := 2

/-- Embeds `num_data(&v)`: the vector after the call. -/
def num_data (e : HybridPoseSharedFocalEstimator α) (num_data : List Int) :
    Option (List Int) := do
  let v := resize num_data 2 0
  let v ← setAt v 0 (e.x0_norm_.length : Int)
  let v ← setAt v 1 (e.x0_norm_.length : Int)
  pure v

/-- Embeds `solver_probabilities(&v)`: the vector after the call. -/
def solver_probabilities [One α] [Zero α] (_e : HybridPoseSharedFocalEstimator α)
    (probabilities : List α) : Option (List α) := do
  let v := resize probabilities 2 0
  let v ← setAt v 0 1
  let v ← setAt v 1 1
  pure v

/-- Embeds `non_minimal_sample_size()`. -/
def non_minimal_sample_size (_e : HybridPoseSharedFocalEstimator α) : Int := 36

end HybridPoseSharedFocalEstimator

namespace HybridPoseSharedFocalEstimator3

/-- Inherited `num_minimal_solvers()`. -/
def num_minimal_solvers (e : HybridPoseSharedFocalEstimator3 α) : Int :=
  e.toHybridPoseSharedFocalEstimator.num_minimal_solvers

/-- Embeds `min_sample_sizes(&v)` of the three-pool estimator. -/
def min_sample_sizes (_e : HybridPoseSharedFocalEstimator3 α)
    (min_sample_sizes : List (List Int)) : Option (List (List Int)) := do
  let v := resize min_sample_sizes 2 []
  let v ← setAt v 0 [4, 4, 0]
  let v ← setAt v 1 [0, 0, 6]
  pure v

/-- Embeds `num_data_types()` of the three-pool estimator. -/
def num_data_types (_e : HybridPoseSharedFocalEstimator3 α) : Int := 3

/-- Embeds `num_data(&v)` of the three-pool estimator. -/
def num_data (e : HybridPoseSharedFocalEstimator3 α) (num_data : List Int) :
    Option (List Int) := do
  let v := resize num_data 3 0
  let v ← setAt v 0 (e.x0_norm_.length : Int)
  let v ← setAt v 1 (e.x0_norm_.length : Int)
  let v ← setAt v 2 (e.x0_norm_.length : Int)
  pure v

/-- Inherited `solver_probabilities(&v)`. -/
def solver_probabilities [One α] [Zero α] (e : HybridPoseSharedFocalEstimator3 α)
    (probabilities : List α) : Option (List α) :=
  e.toHybridPoseSharedFocalEstimator.solver_probabilities probabilities

/-- Embeds `HybridPoseSharedFocalEstimator3::MinimalSolver`.  The two-pool
`HybridPoseSharedFocalEstimator::MinimalSolver` is only declared in the header; it is the
parameter `base`, a function of the estimator, the sample, the solver index and the incoming
contents of `*models`, giving the return code and the outgoing `*models`.  `sample[0]` and
`sample[2]` are reads of a `std::vector`: they fail when the sample has no such pool. -/
def MinimalSolver
    (base : HybridPoseSharedFocalEstimator α → List (List Int) → Int →
      List (PoseScaleOffsetSharedFocal α) → Int × List (PoseScaleOffsetSharedFocal α))
    (e : HybridPoseSharedFocalEstimator3 α) (sample : List (List Int)) (solver_idx : Int)
    (models : List (PoseScaleOffsetSharedFocal α)) :
    Option (Int × List (PoseScaleOffsetSharedFocal α)) := do
  let s0 ← sample[0]?
  let s2 ← sample[2]?
  let sample_2 : List (List Int) := [s0, s2]
  pure (base e.toHybridPoseSharedFocalEstimator sample_2 solver_idx models)

end HybridPoseSharedFocalEstimator3

/-! ## The Ceres problem built by the refiner -/

/-- The members of `SharedFocalOptimizer3` whose addresses are passed to Ceres. -/
inductive ParameterBlock where
  | scale_
  | offset0_
  | offset1_
  | qvec_
  | tvec_
  | focal_
  deriving DecidableEq, Repr

/-- Number of doubles behind each address (`double`, `Vector4d`, `Vector3d`). -/
def ParameterBlock.size : ParameterBlock → Nat
  | .qvec_ => 4
  | .tvec_ => 3
  | _ => 1

/-- Modelled from the spec: the cost functors of optimizer.h are not among the sources.  A
cost function is recorded as the functor whose `Create` built it, with the arguments of that
call: the two reprojection functors (point, matched point, depth) and the epipolar functor
(two points, weight). -/
inductive CostFunction (α : Type) where
  | LiftProjectionSharedFocalFunctor0 (x0 x1 : Fin 3 → α) (d0 : α)
  | LiftProjectionSharedFocalFunctor1 (x1 x0 : Fin 3 → α) (d1 : α)
  | SampsonErrorSharedFocalFunctor (x0 x1 : Fin 3 → α) (weight : α)

/-- The residual family of a cost function. -/
inductive ResidualFamily where
  | reproj_0
  | reproj_1
  | sampson
  deriving DecidableEq, Repr

/-- The family a cost function belongs to. -/
def CostFunction.family : CostFunction α → ResidualFamily
  | .LiftProjectionSharedFocalFunctor0 _ _ _ => .reproj_0
  | .LiftProjectionSharedFocalFunctor1 _ _ _ => .reproj_1
  | .SampsonErrorSharedFocalFunctor _ _ _ => .sampson

/-- The residual dimension each functor declares to Ceres; optimizer.h is not among the
sources, so the three numbers are parameters. -/
structure ResidualSizes where
  reproj_0 : Nat
  reproj_1 : Nat
  sampson : Nat

/-- Ceres accepts a sized cost function only with at least one residual. -/
def ResidualSizes.Positive (sz : ResidualSizes) : Prop :=
  0 < sz.reproj_0 ∧ 0 < sz.reproj_1 ∧ 0 < sz.sampson

/-- Embeds `CostFunction::num_residuals()`. -/
def CostFunction.num_residuals (sz : ResidualSizes) (c : CostFunction α) : Nat :=
  match c.family with
  | .reproj_0 => sz.reproj_0
  | .reproj_1 => sz.reproj_1
  | .sampson => sz.sampson

/-- Embeds `ceres::LossFunction`: the trivial loss or one supplied by the configuration. -/
inductive LossFunction (L : Type) where
  | TrivialLoss
  | configured (l : L)

/-- Embeds `ceres::ScaledLoss(rho, a, DO_NOT_TAKE_OWNERSHIP)`. -/
structure ScaledLoss (α L : Type) where
  rho : LossFunction L
  a : α

/-- One call of `AddResidualBlock`: cost, loss and the parameter blocks in call order. -/
structure ResidualBlock (α L : Type) where
  cost_function : CostFunction α
  loss_function : ScaledLoss α L
  parameter_blocks : List ParameterBlock

/-- Embeds `ceres::Manifold`, as far as `SetUp` creates one. -/
inductive Manifold where
  | QuaternionManifold
  deriving DecidableEq, Repr

/-- Embeds `Manifold::AmbientSize()`. -/
def Manifold.AmbientSize : Manifold → Nat
  | .QuaternionManifold => 4

/-- Embeds `ceres::Problem`: what has been registered with it. -/
structure Problem (α L PO : Type) where
  options : PO
  residual_blocks : List (ResidualBlock α L)
  parameter_blocks : List ParameterBlock
  lower_bounds : List (ParameterBlock × Nat × α)
  constant_blocks : List ParameterBlock
  manifolds : List (ParameterBlock × Manifold)

namespace Problem

/-- Embeds `new ceres::Problem(options)`. -/
def new (options : PO) : Problem α L PO :=
  ⟨options, [], [], [], [], []⟩

/-- Embeds `AddResidualBlock`: records the block and registers its parameter blocks. -/
def AddResidualBlock (p : Problem α L PO) (cost_function : CostFunction α)
    (loss_function : ScaledLoss α L) (parameter_blocks : List ParameterBlock) :
    Problem α L PO :=
  { p with
    residual_blocks := p.residual_blocks ++ [⟨cost_function, loss_function, parameter_blocks⟩]
    parameter_blocks := parameter_blocks ∪ p.parameter_blocks }

/-- Embeds `HasParameterBlock`. -/
def HasParameterBlock (p : Problem α L PO) (b : ParameterBlock) : Bool :=
  decide (b ∈ p.parameter_blocks)

/-- Embeds `SetParameterLowerBound(values, index, lower_bound)`; aborts on an unknown block or an
index outside the block. -/
def SetParameterLowerBound (p : Problem α L PO) (b : ParameterBlock) (index : Nat)
    (lower_bound : α) : Option (Problem α L PO) :=
  if p.HasParameterBlock b ∧ index < b.size then
    some { p with lower_bounds := (b, index, lower_bound) :: p.lower_bounds }
  else none

/-- Embeds `SetParameterBlockConstant(values)`; aborts on an unknown block. -/
def SetParameterBlockConstant (p : Problem α L PO) (b : ParameterBlock) :
    Option (Problem α L PO) :=
  if p.HasParameterBlock b then
    some { p with constant_blocks := b :: p.constant_blocks }
  else none

/-- Embeds `SetManifold(values, manifold)` (`SetParameterization` in older Ceres); aborts on an
unknown block or a size mismatch. -/
def SetManifold (p : Problem α L PO) (b : ParameterBlock) (m : Manifold) :
    Option (Problem α L PO) :=
  if p.HasParameterBlock b ∧ m.AmbientSize = b.size then
    some { p with manifolds := (b, m) :: p.manifolds }
  else none

/-- Embeds `NumResidualBlocks()`. -/
def NumResidualBlocks (p : Problem α L PO) : Nat :=
  p.residual_blocks.length

/-- Embeds `NumResiduals()`: the residual dimensions of all blocks, summed. -/
def NumResiduals (sz : ResidualSizes) (p : Problem α L PO) : Nat :=
  (p.residual_blocks.map fun blk => blk.cost_function.num_residuals sz).sum

/-- The lower bound in force for coordinate `index` of block `b` (the last one set). -/
def lowerBound (p : Problem α L PO) (b : ParameterBlock) (index : Nat) : Option α :=
  (p.lower_bounds.find? fun e => decide (e.1 = b ∧ e.2.1 = index)).map fun e => e.2.2

end Problem

/-! ## The external minimiser -/

/-- The doubles of the six members, as Ceres sees them. -/
structure ParameterValues (α : Type) where
  scale_ : α
  offset0_ : α
  offset1_ : α
  qvec_ : Fin 4 → α
  tvec_ : Fin 3 → α
  focal_ : α

/-- The array of doubles behind a parameter block. -/
def ParameterValues.block (v : ParameterValues α) : ParameterBlock → List α
  | .scale_ => [v.scale_]
  | .offset0_ => [v.offset0_]
  | .offset1_ => [v.offset1_]
  | .qvec_ => [v.qvec_ 0, v.qvec_ 1, v.qvec_ 2, v.qvec_ 3]
  | .tvec_ => [v.tvec_ 0, v.tvec_ 1, v.tvec_ 2]
  | .focal_ => [v.focal_]

/-- The Ceres library calls of `Solve`: `Solver::Options::IsValid` and `ceres::Solve`, which
maps the problem and the current parameter values to new values and a summary. -/
structure CeresSolver (α L PO SO S : Type) where
  IsValid : SolverOptions SO → Bool
  Solve : SolverOptions SO → Problem α L PO → ParameterValues α → ParameterValues α × S

/-- A minimiser that leaves every parameter block marked constant at its value. -/
def CeresSolver.KeepsConstantBlocks (ceres : CeresSolver α L PO SO S) : Prop :=
  ∀ (opts : SolverOptions SO) (p : Problem α L PO) (v : ParameterValues α)
    (b : ParameterBlock), b ∈ p.constant_blocks → (ceres.Solve opts p v).1.block b = v.block b

/-! ## SharedFocalOptimizer3 -/

/-- Members of `SharedFocalOptimizer3`; `problem_` is `none` while the pointer is null. -/
structure SharedFocalOptimizer3 (α L PO SO S : Type) where
  x0_ : List (Fin 3 → α)
  x1_ : List (Fin 3 → α)
  d0_ : List α
  d1_ : List α
  qvec_ : Fin 4 → α
  tvec_ : Fin 3 → α
  uncert_weight_ : List α
  focal_ : α
  scale_ : α
  offset0_ : α
  offset1_ : α
  min_depth_ : Fin 2 → α
  config_ : SharedFocalOptimizerConfig α L PO SO
  indices_reproj_0_ : List Int
  indices_reproj_1_ : List Int
  indices_sampson_ : List Int
  problem_ : Option (Problem α L PO)
  summary_ : S
  final_ : Bool

/-- Eigen `v(i)` / `m.col(i)` with an `int` index: fails outside `[0, size)`. -/
def coeff (v : List β) (i : Int) : Option β :=
  if 0 ≤ i then v[i.toNat]? else none

/-- A range-based `for` over an index vector, with the problem as the loop state. -/
def forEachIndex (body : Int → Problem α L PO → Option (Problem α L PO)) :
    List Int → Problem α L PO → Option (Problem α L PO)
  | [], p => some p
  | i :: rest, p =>
    match body i p with
    | none => none
    | some q => forEachIndex body rest q

namespace SharedFocalOptimizer3

/-- The constructor; `summary` is the default-constructed `ceres::Solver::Summary`. -/
def new [LinearOrderedField α] (sqrt : α → α)
    (x0 x1 : List (Fin 3 → α)) (depth0 depth1 : List α)
    (indices_reproj_0 indices_reproj_1 indices_sampson : List Int)
    (min_depth : Fin 2 → α) (pose : PoseScaleOffsetSharedFocal α) (uncert_weight : List α)
    (config : SharedFocalOptimizerConfig α L PO SO) (final : Bool) (summary : S) :
    SharedFocalOptimizer3 α L PO SO S :=
  { x0_ := x0, x1_ := x1, d0_ := depth0, d1_ := depth1, uncert_weight_ := uncert_weight,
    indices_reproj_0_ := indices_reproj_0, indices_reproj_1_ := indices_reproj_1,
    indices_sampson_ := indices_sampson,
    min_depth_ := min_depth, config_ := config, final_ := final,
    problem_ := none, summary_ := summary,
    qvec_ := RotationMatrixToQuaternion sqrt pose.R,
    tvec_ := pose.t,
    offset0_ := pose.offset0,
    offset1_ := pose.offset1,
    scale_ := pose.scale,
    focal_ := pose.focal }

/-- The loss of a residual family: `config_.<family>_loss_function.get()`, replaced by a
`ceres::TrivialLoss` when the pointer is null. -/
def lossOrTrivial : Option L → LossFunction L
  | some l => .configured l
  | none => .TrivialLoss

/-- Body of the loop over `indices_reproj_0_`. -/
def reproj0Body (o : SharedFocalOptimizer3 α L PO SO S) (proj_loss_func : LossFunction L)
    (i : Int) (problem : Problem α L PO) : Option (Problem α L PO) := do
  let weighted_loss : ScaledLoss α L := ⟨proj_loss_func, ← coeff o.uncert_weight_ i⟩
  let reproj_cost_0 := CostFunction.LiftProjectionSharedFocalFunctor0
    (← coeff o.x0_ i) (← coeff o.x1_ i) (← coeff o.d0_ i)
  pure (problem.AddResidualBlock reproj_cost_0 weighted_loss
    [.offset0_, .qvec_, .tvec_, .focal_])

/-- Body of the loop over `indices_reproj_1_`. -/
def reproj1Body (o : SharedFocalOptimizer3 α L PO SO S) (proj_loss_func : LossFunction L)
    (i : Int) (problem : Problem α L PO) : Option (Problem α L PO) := do
  let weighted_loss : ScaledLoss α L := ⟨proj_loss_func, ← coeff o.uncert_weight_ i⟩
  let reproj_cost_1 := CostFunction.LiftProjectionSharedFocalFunctor1
    (← coeff o.x1_ i) (← coeff o.x0_ i) (← coeff o.d1_ i)
  pure (problem.AddResidualBlock reproj_cost_1 weighted_loss
    [.scale_, .offset1_, .qvec_, .tvec_, .focal_])

/-- Body of the loop over `indices_sampson_`, with the test of `use_sampson` inside. -/
def sampsonBody (o : SharedFocalOptimizer3 α L PO SO S) (sampson_loss_func : LossFunction L)
    (i : Int) (problem : Problem α L PO) : Option (Problem α L PO) :=
  if o.config_.use_sampson then do
    let weighted_loss : ScaledLoss α L := ⟨sampson_loss_func, ← coeff o.uncert_weight_ i⟩
    let sampson_cost := CostFunction.SampsonErrorSharedFocalFunctor
      (← coeff o.x0_ i) (← coeff o.x1_ i) o.config_.weight_sampson
    pure (problem.AddResidualBlock sampson_cost weighted_loss [.qvec_, .tvec_, .focal_])
  else pure problem

/-- Embeds `SetUp()`: the optimizer with the assembled problem, or `none` when a data access
or a Ceres call aborts.  The literal `1e-2` is `1 / 100`. -/
def SetUp [Field α] (o : SharedFocalOptimizer3 α L PO SO S) :
    Option (SharedFocalOptimizer3 α L PO SO S) := do
  let problem : Problem α L PO := Problem.new o.config_.problem_options
  let _geo_loss_func : LossFunction L := lossOrTrivial o.config_.geom_loss_function
  let proj_loss_func : LossFunction L := lossOrTrivial o.config_.reproj_loss_function
  let sampson_loss_func : LossFunction L := lossOrTrivial o.config_.sampson_loss_function
  let problem ←
    (if o.config_.use_reprojection then do
      let problem ← forEachIndex (reproj0Body o proj_loss_func) o.indices_reproj_0_ problem
      forEachIndex (reproj1Body o proj_loss_func) o.indices_reproj_1_ problem
    else pure problem)
  let problem ← forEachIndex (sampsonBody o sampson_loss_func) o.indices_sampson_ problem
  let problem ←
    (if problem.HasParameterBlock .scale_ then
      problem.SetParameterLowerBound .scale_ 0 (1 / 100)
    else pure problem)
  let problem ←
    (if problem.HasParameterBlock .offset0_ then
      problem.SetParameterLowerBound .offset0_ 0 (-o.min_depth_ 0 + 1 / 100)
    else pure problem)
  let problem ←
    (if problem.HasParameterBlock .offset1_ then
      problem.SetParameterLowerBound .offset1_ 0 (-o.min_depth_ 1 + 1 / 100)
    else pure problem)
  let problem ←
    (if problem.HasParameterBlock .qvec_ then
      (if o.config_.constant_pose then do
        let problem ← problem.SetParameterBlockConstant .qvec_
        problem.SetParameterBlockConstant .tvec_
      else
        problem.SetManifold .qvec_ Manifold.QuaternionManifold)
    else pure problem)
  pure { o with problem_ := some problem }

/-- The current values of the six members. -/
def values (o : SharedFocalOptimizer3 α L PO SO S) : ParameterValues α :=
  ⟨o.scale_, o.offset0_, o.offset1_, o.qvec_, o.tvec_, o.focal_⟩

/-- What `ceres::Solve` leaves in the members: it writes through the addresses registered
with the problem, and to `summary_`; a member whose address the problem does not know keeps
its value. -/
def store (o : SharedFocalOptimizer3 α L PO SO S) (p : Problem α L PO)
    (v : ParameterValues α) (summary : S) : SharedFocalOptimizer3 α L PO SO S :=
  { o with
    scale_ := if p.HasParameterBlock .scale_ then v.scale_ else o.scale_
    offset0_ := if p.HasParameterBlock .offset0_ then v.offset0_ else o.offset0_
    offset1_ := if p.HasParameterBlock .offset1_ then v.offset1_ else o.offset1_
    qvec_ := if p.HasParameterBlock .qvec_ then v.qvec_ else o.qvec_
    tvec_ := if p.HasParameterBlock .tvec_ then v.tvec_ else o.tvec_
    focal_ := if p.HasParameterBlock .focal_ then v.focal_ else o.focal_
    summary_ := summary }

/-- Embeds `Solve()`: the returned flag and the optimizer afterwards; `none` when `problem_` is null
or the `CHECK` on the solver options aborts.  Modelled for `CERES_VERSION_MAJOR >= 2`. -/
def Solve (sz : ResidualSizes) (ceres : CeresSolver α L PO SO S)
    (o : SharedFocalOptimizer3 α L PO SO S) :
    Option (Bool × SharedFocalOptimizer3 α L PO SO S) :=
  match o.problem_ with
  | none => none
  | some problem =>
    if problem.NumResiduals sz = 0 then some (false, o)
    else
      let solver_options := o.config_.solver_options
      let solver_options := { solver_options with linear_solver_type := .DENSE_QR }
      let solver_options := { solver_options with num_threads := 1 }
      if ceres.IsValid solver_options then
        let r := ceres.Solve solver_options problem o.values
        some (true, o.store problem r.1 r.2)
      else none

/-- Embeds `GetSolution()`. -/
def GetSolution [Field α] [DecidableEq α] (sqrt : α → α)
    (o : SharedFocalOptimizer3 α L PO SO S) : PoseScaleOffsetSharedFocal α :=
  let R := QuaternionToRotationMatrix sqrt o.qvec_
  ⟨R, o.tvec_, o.scale_, o.offset0_, o.offset1_, o.focal_⟩

/-- The data accesses of one loop iteration are in range. -/
def InRange (v : List β) (i : Int) : Prop := 0 ≤ i ∧ i.toNat < v.length

/-- Every index of an enabled pool addresses the data the loop body reads for it. -/
def IndicesInRange (o : SharedFocalOptimizer3 α L PO SO S) : Prop :=
  (o.config_.use_reprojection = true →
    (∀ i ∈ o.indices_reproj_0_, InRange o.uncert_weight_ i ∧ InRange o.x0_ i ∧
      InRange o.x1_ i ∧ InRange o.d0_ i) ∧
    (∀ i ∈ o.indices_reproj_1_, InRange o.uncert_weight_ i ∧ InRange o.x1_ i ∧
      InRange o.x0_ i ∧ InRange o.d1_ i)) ∧
  (o.config_.use_sampson = true →
    ∀ i ∈ o.indices_sampson_, InRange o.uncert_weight_ i ∧ InRange o.x0_ i ∧
      InRange o.x1_ i)

end SharedFocalOptimizer3

/-! ## Auxiliary definitions of the proofs -/

/-- Four times the outer product of the unit quaternion of a rotation matrix with itself,
written in the entries of the matrix (rows and columns in the order `w, x, y, z`). -/
def symmetricK (R : Matrix (Fin 3) (Fin 3) ℝ) : Matrix (Fin 4) (Fin 4) ℝ :=
  !![1 + R 0 0 + R 1 1 + R 2 2, R 2 1 - R 1 2, R 0 2 - R 2 0, R 1 0 - R 0 1;
     R 2 1 - R 1 2, 1 + R 0 0 - R 1 1 - R 2 2, R 0 1 + R 1 0, R 0 2 + R 2 0;
     R 0 2 - R 2 0, R 0 1 + R 1 0, 1 - R 0 0 + R 1 1 - R 2 2, R 1 2 + R 2 1;
     R 1 0 - R 0 1, R 0 2 + R 2 0, R 1 2 + R 2 1, 1 - R 0 0 - R 1 1 + R 2 2]

/-- The entrywise equations of a proper rotation matrix: orthonormal columns, orthonormal
rows, and every entry equal to its cofactor. -/
structure RotFacts (a b c d e f g h i : ℝ) : Prop where
  c00 : a * a + d * d + g * g = 1
  c11 : b * b + e * e + h * h = 1
  c22 : c * c + f * f + i * i = 1
  c01 : a * b + d * e + g * h = 0
  c02 : a * c + d * f + g * i = 0
  c12 : b * c + e * f + h * i = 0
  r00 : a * a + b * b + c * c = 1
  r11 : d * d + e * e + f * f = 1
  r22 : g * g + h * h + i * i = 1
  r01 : a * d + b * e + c * f = 0
  r02 : a * g + b * h + c * i = 0
  r12 : d * g + e * h + f * i = 0
  a00 : e * i - f * h = a
  a01 : f * g - d * i = b
  a02 : d * h - e * g = c
  a10 : c * h - b * i = d
  a11 : a * i - c * g = e
  a12 : b * g - a * h = f
  a20 : b * f - c * e = g
  a21 : c * d - a * f = h
  a22 : a * e - b * d = i

/-! ## Auxiliary definitions for the refiner's claims and witness inputs -/

/-- The residual block of entry `i` of the reprojection-0 pool: over
(offset0, rotation, translation, focal), built from the data of point `i`. -/
def reprojBlock0 (o : SharedFocalOptimizer3 α L PO SO S) (i : Int) :
    Option (ResidualBlock α L) :=
  match coeff o.uncert_weight_ i, coeff o.x0_ i, coeff o.x1_ i, coeff o.d0_ i with
  | some w, some a, some b, some d =>
    some ⟨.LiftProjectionSharedFocalFunctor0 a b d,
      ⟨SharedFocalOptimizer3.lossOrTrivial o.config_.reproj_loss_function, w⟩,
      [.offset0_, .qvec_, .tvec_, .focal_]⟩
  | _, _, _, _ => none

/-- The residual block of entry `i` of the reprojection-1 pool: over
(scale, offset1, rotation, translation, focal), built from the data of point `i`. -/
def reprojBlock1 (o : SharedFocalOptimizer3 α L PO SO S) (i : Int) :
    Option (ResidualBlock α L) :=
  match coeff o.uncert_weight_ i, coeff o.x1_ i, coeff o.x0_ i, coeff o.d1_ i with
  | some w, some a, some b, some d =>
    some ⟨.LiftProjectionSharedFocalFunctor1 a b d,
      ⟨SharedFocalOptimizer3.lossOrTrivial o.config_.reproj_loss_function, w⟩,
      [.scale_, .offset1_, .qvec_, .tvec_, .focal_]⟩
  | _, _, _, _ => none

/-- The residual block of entry `i` of the epipolar pool: over
(rotation, translation, focal), built from the data of point `i`. -/
def sampsonBlock (o : SharedFocalOptimizer3 α L PO SO S) (i : Int) :
    Option (ResidualBlock α L) :=
  match coeff o.uncert_weight_ i, coeff o.x0_ i, coeff o.x1_ i with
  | some w, some a, some b =>
    some ⟨.SampsonErrorSharedFocalFunctor a b o.config_.weight_sampson,
      ⟨SharedFocalOptimizer3.lossOrTrivial o.config_.sampson_loss_function, w⟩,
      [.qvec_, .tvec_, .focal_]⟩
  | _, _, _ => none

/-- One residual block per entry of each enabled pool, in the order of the pools. -/
def blocksPerIndex (o : SharedFocalOptimizer3 α L PO SO S) :
    List (Option (ResidualBlock α L)) :=
  (if o.config_.use_reprojection then
      o.indices_reproj_0_.map (reprojBlock0 o) ++ o.indices_reproj_1_.map (reprojBlock1 o)
    else []) ++
  (if o.config_.use_sampson then o.indices_sampson_.map (sampsonBlock o) else [])

/-- The problem after a sequence of `AddResidualBlock` calls. -/
def addBlocks (p : Problem α L PO) (bs : List (ResidualBlock α L)) : Problem α L PO :=
  bs.foldl (fun q blk =>
    q.AddResidualBlock blk.cost_function blk.loss_function blk.parameter_blocks) p

/-- The bounds and the pose treatment that `SetUp` applies to the assembled problem. -/
def constrain [Field α] (o : SharedFocalOptimizer3 α L PO SO S) (p : Problem α L PO) :
    Problem α L PO :=
  { p with
    lower_bounds :=
      (if p.HasParameterBlock .offset1_ then
        [(ParameterBlock.offset1_, 0, -o.min_depth_ 1 + 1 / 100)] else []) ++
      (if p.HasParameterBlock .offset0_ then
        [(ParameterBlock.offset0_, 0, -o.min_depth_ 0 + 1 / 100)] else []) ++
      (if p.HasParameterBlock .scale_ then
        [(ParameterBlock.scale_, 0, 1 / 100)] else []) ++ p.lower_bounds
    constant_blocks :=
      (if p.HasParameterBlock .qvec_ ∧ o.config_.constant_pose then
        [ParameterBlock.tvec_, ParameterBlock.qvec_] else []) ++ p.constant_blocks
    manifolds :=
      (if p.HasParameterBlock .qvec_ ∧ ¬ o.config_.constant_pose = true then
        [(ParameterBlock.qvec_, Manifold.QuaternionManifold)] else []) ++ p.manifolds }

/-- The shape of a residual block: its family and its parameter blocks in call order. -/
def ResidualBlock.shape (blk : ResidualBlock α L) : ResidualFamily × List ParameterBlock :=
  (blk.cost_function.family, blk.parameter_blocks)

/-- A configuration with both residual families enabled and the pose frozen. -/
def sampleConfig : SharedFocalOptimizerConfig ℚ Unit Unit Unit :=
  { use_reprojection := true, use_sampson := true, constant_pose := true, weight_sampson := 1,
    geom_loss_function := none, reproj_loss_function := none, sampson_loss_function := none,
    problem_options := (), solver_options := ⟨.other 0, 4, ()⟩ }

/-- An input pose with identity rotation. -/
def samplePose : PoseScaleOffsetSharedFocal ℚ :=
  ⟨1, ![1, 2, 3], 2, 3, 4, 5⟩

/-- An optimizer over two correspondences, with the pools `[0]`, `[1]` and `[0, 1]`. -/
def sampleOptimizer : SharedFocalOptimizer3 ℚ Unit Unit Unit Nat :=
  SharedFocalOptimizer3.new (fun x => x) [![1, 2, 1], ![3, 4, 1]] [![5, 6, 1], ![7, 8, 1]]
    [1, 2] [3, 4] [0] [1] [0, 1] ![1 / 2, 1 / 3] samplePose [1, 1] sampleConfig false 0

/-- An optimizer over the same data with every pool empty. -/
def emptyOptimizer : SharedFocalOptimizer3 ℚ Unit Unit Unit Nat :=
  SharedFocalOptimizer3.new (fun x => x) [![1, 2, 1], ![3, 4, 1]] [![5, 6, 1], ![7, 8, 1]]
    [1, 2] [3, 4] [] [] [] ![1 / 2, 1 / 3] samplePose [1, 1] sampleConfig false 0

/-- A minimiser that moves the focal length unless its block is constant. -/
def sampleSolver : CeresSolver ℚ Unit Unit Unit Nat :=
  { IsValid := fun _ => true
    Solve := fun _ p v =>
      (if ParameterBlock.focal_ ∈ p.constant_blocks then v
        else { v with focal_ := v.focal_ + 1 }, 1) }

/-- The residual dimensions two, two and one. -/
def sampleSizes : ResidualSizes := ⟨2, 2, 1⟩

/-- The rotation by a quarter turn about the third axis, with unit translation and scales. -/
def quarterTurnPose : PoseScaleOffsetSharedFocal ℝ :=
  ⟨!![0, -1, 0; 1, 0, 0; 0, 0, 1], ![1, 0, 0], 1, 0, 0, 1⟩

/-! ## Definitions for the epipolar claims -/

/-- The local `C` of `compute_sampson_error`: the epipolar constraint of the two points. -/
def sampson_C [Field α] (x1 x2 : Fin 2 → α) (E : Matrix (Fin 3) (Fin 3) α) : α :=
  let Ex1_0 := E 0 0 * x1 0 + E 0 1 * x1 1 + E 0 2
  let Ex1_1 := E 1 0 * x1 0 + E 1 1 * x1 1 + E 1 2
  let Ex1_2 := E 2 0 * x1 0 + E 2 1 * x1 1 + E 2 2
  x2 0 * Ex1_0 + x2 1 * Ex1_1 + Ex1_2

/-- The local `Cx` of `compute_sampson_error`. -/
def sampson_Cx [Field α] (x1 : Fin 2 → α) (E : Matrix (Fin 3) (Fin 3) α) : α :=
  let Ex1_0 := E 0 0 * x1 0 + E 0 1 * x1 1 + E 0 2
  let Ex1_1 := E 1 0 * x1 0 + E 1 1 * x1 1 + E 1 2
  Ex1_0 * Ex1_0 + Ex1_1 * Ex1_1

/-- The local `Cy` of `compute_sampson_error`. -/
def sampson_Cy [Field α] (x2 : Fin 2 → α) (E : Matrix (Fin 3) (Fin 3) α) : α :=
  let Ex2_0 := E 0 0 * x2 0 + E 1 0 * x2 1 + E 2 0
  let Ex2_1 := E 0 1 * x2 0 + E 1 1 * x2 1 + E 2 1
  Ex2_0 * Ex2_0 + Ex2_1 * Ex2_1

/-- The image point of a 3D point with non-zero third coordinate: `X / X_z` without its third
coordinate, which is one. -/
def projectPoint [Field α] (X : Fin 3 → α) : Fin 2 → α :=
  ![X 0 / X 2, X 1 / X 2]

/-- The epipolar constraint `x2ᵀ E x1` of two homogeneous image points. -/
def epipolarConstraint [Field α] (x1 x2 : Fin 2 → α) (E : Matrix (Fin 3) (Fin 3) α) : α :=
  Matrix.dotProduct (homogeneous x2) (E.mulVec (homogeneous x1))

/-- A quarter turn about the third axis, over the rationals. -/
def quarterTurn : Matrix (Fin 3) (Fin 3) ℚ :=
  !![0, -1, 0; 1, 0, 0; 0, 0, 1]

/-- A translation for the sample correspondence. -/
def sampleTranslation : Fin 3 → ℚ := ![1, 0, 1]

/-- A 3D point in front of both cameras of the sample correspondence. -/
def samplePoint : Fin 3 → ℚ := ![1, 2, 4]

/-! ## Lemmas: quaternions and rotations -/

theorem toRotationMatrix_orthonormal [CommRing α] (w x y z : α)
    (h : w * w + x * x + y * y + z * z = 1) :
    (toRotationMatrix w x y z).transpose * toRotationMatrix w x y z = 1 ∧
    (toRotationMatrix w x y z).det = 1 := by
  constructor
  · ext i j
    simp only [Matrix.mul_apply, Matrix.transpose_apply, Fin.sum_univ_three]
    fin_cases i <;> fin_cases j <;>
      simp [toRotationMatrix]
    · linear_combination (4 * (y * y + z * z)) * h
    · linear_combination (-4 * (x * y)) * h
    · linear_combination (-4 * (x * z)) * h
    · linear_combination (-4 * (x * y)) * h
    · linear_combination (4 * (x * x + z * z)) * h
    · linear_combination (-4 * (y * z)) * h
    · linear_combination (-4 * (x * z)) * h
    · linear_combination (-4 * (y * z)) * h
    · linear_combination (4 * (x * x + y * y)) * h
  · have hh : toRotationMatrix w x y z =
        !![w*w + x*x - y*y - z*z, 2*x*y - 2*w*z, 2*x*z + 2*w*y;
           2*x*y + 2*w*z, w*w - x*x + y*y - z*z, 2*y*z - 2*w*x;
           2*x*z - 2*w*y, 2*y*z + 2*w*x, w*w - x*x - y*y + z*z] := by
      ext i j
      fin_cases i <;> fin_cases j <;> simp [toRotationMatrix] <;>
        first | ring1 | linear_combination (-1 : α) * h
    rw [hh, Matrix.det_fin_three]
    simp
    have h3 : (w * w + x * x + y * y + z * z) ^ 3 = 1 := by rw [h]; ring
    linear_combination h3


theorem squaredNorm_NormalizeQuaternion (q : Fin 4 → ℝ) :
    squaredNorm (NormalizeQuaternion Real.sqrt q) = 1 := by
  have h0 : 0 ≤ squaredNorm q := by
    unfold squaredNorm
    nlinarith [mul_self_nonneg (q 0), mul_self_nonneg (q 1), mul_self_nonneg (q 2),
      mul_self_nonneg (q 3)]
  unfold NormalizeQuaternion norm
  by_cases hn : Real.sqrt (squaredNorm q) = 0
  · simp only [hn, if_true]
    have hs : squaredNorm q = 0 := (Real.sqrt_eq_zero h0).1 hn
    unfold squaredNorm at hs
    have h1 : q 1 = 0 := by
      nlinarith [mul_self_nonneg (q 0), mul_self_nonneg (q 1), mul_self_nonneg (q 2),
        mul_self_nonneg (q 3)]
    have h2 : q 2 = 0 := by
      nlinarith [mul_self_nonneg (q 0), mul_self_nonneg (q 1), mul_self_nonneg (q 2),
        mul_self_nonneg (q 3)]
    have h3 : q 3 = 0 := by
      nlinarith [mul_self_nonneg (q 0), mul_self_nonneg (q 1), mul_self_nonneg (q 2),
        mul_self_nonneg (q 3)]
    simp [squaredNorm, h1, h2, h3]
  · simp only [hn, if_false]
    have hsq : Real.sqrt (squaredNorm q) * Real.sqrt (squaredNorm q) = squaredNorm q :=
      Real.mul_self_sqrt h0
    simp only [squaredNorm] at hsq hn ⊢
    field_simp
    linear_combination -hsq


theorem rotFacts_of_rotation (R : Matrix (Fin 3) (Fin 3) ℝ)
    (hO : R.transpose * R = 1) (hD : R.det = 1) :
    RotFacts (R 0 0) (R 0 1) (R 0 2) (R 1 0) (R 1 1) (R 1 2) (R 2 0) (R 2 1) (R 2 2) := by
  have hO2 : R * R.transpose = 1 := Matrix.mul_eq_one_comm.mp hO
  have hadj : R.adjugate = R.transpose := by
    have h1 : R⁻¹ = R.transpose := Matrix.inv_eq_left_inv hO
    rw [Matrix.inv_def, hD] at h1
    simpa using h1
  rw [Matrix.adjugate_fin_three] at hadj
  have c := fun i j => congrFun (congrFun hO i) j
  have r := fun i j => congrFun (congrFun hO2 i) j
  have a := fun i j => congrFun (congrFun hadj i) j
  have c00 := c 0 0; have c01 := c 0 1; have c02 := c 0 2
  have c11 := c 1 1; have c12 := c 1 2; have c22 := c 2 2
  have r00 := r 0 0; have r01 := r 0 1; have r02 := r 0 2
  have r11 := r 1 1; have r12 := r 1 2; have r22 := r 2 2
  have a00 := a 0 0; have a01 := a 0 1; have a02 := a 0 2
  have a10 := a 1 0; have a11 := a 1 1; have a12 := a 1 2
  have a20 := a 2 0; have a21 := a 2 1; have a22 := a 2 2
  simp only [Matrix.mul_apply, Matrix.transpose_apply, Fin.sum_univ_three] at c00 c01 c02 c11 c12 c22 r00 r01 r02 r11 r12 r22
  simp at c00 c01 c02 c11 c12 c22 r00 r01 r02 r11 r12 r22 a00 a01 a02 a10 a11 a12 a20 a21 a22
  constructor <;> linarith

set_option maxHeartbeats 4000000 in
theorem symmetricK_rank_one (R : Matrix (Fin 3) (Fin 3) ℝ)
    (F : RotFacts (R 0 0) (R 0 1) (R 0 2) (R 1 0) (R 1 1) (R 1 2) (R 2 0) (R 2 1) (R 2 2))
    (r j k : Fin 4) :
    symmetricK R r j * symmetricK R r k = symmetricK R r r * symmetricK R j k := by
  obtain ⟨c00, c11, c22, c01, c02, c12, r00, r11, r22, r01, r02, r12, a00, a01, a02, a10, a11,
    a12, a20, a21, a22⟩ := F
  fin_cases r <;> fin_cases j <;> fin_cases k <;> simp [symmetricK] <;> linarith


theorem toRotationMatrix_of_products (R : Matrix (Fin 3) (Fin 3) ℝ) (q : Fin 4 → ℝ)
    (hq : ∀ j k, 4 * q j * q k = symmetricK R j k) :
    toRotationMatrix (q 0) (q 1) (q 2) (q 3) = R ∧ squaredNorm q = 1 := by
  have h00 := hq 0 0; have h01 := hq 0 1; have h02 := hq 0 2; have h03 := hq 0 3
  have h11 := hq 1 1; have h12 := hq 1 2; have h13 := hq 1 3
  have h22 := hq 2 2; have h23 := hq 2 3; have h33 := hq 3 3
  simp [symmetricK] at h00 h01 h02 h03 h11 h12 h13 h22 h23 h33
  constructor
  · ext i j
    fin_cases i <;> fin_cases j <;> simp [toRotationMatrix] <;> linarith
  · unfold squaredNorm
    linarith

theorem products_of_row (R : Matrix (Fin 3) (Fin 3) ℝ)
    (F : RotFacts (R 0 0) (R 0 1) (R 0 2) (R 1 0) (R 1 1) (R 1 2) (R 2 0) (R 2 1) (R 2 2))
    (r : Fin 4) (hpos : 0 < symmetricK R r r) (q : Fin 4 → ℝ)
    (hq : ∀ j, q j = symmetricK R r j * ((1 / 2) / Real.sqrt (symmetricK R r r))) (j k : Fin 4) :
    4 * q j * q k = symmetricK R j k := by
  have hs : Real.sqrt (symmetricK R r r) * Real.sqrt (symmetricK R r r) = symmetricK R r r :=
    Real.mul_self_sqrt hpos.le
  have hs0 : Real.sqrt (symmetricK R r r) ≠ 0 := (Real.sqrt_pos.2 hpos).ne'
  have hk := symmetricK_rank_one R F r j k
  rw [hq j, hq k]
  field_simp
  linear_combination 4 * hk - 4 * symmetricK R j k * hs

theorem quaternionFromMatrix_row (R : Matrix (Fin 3) (Fin 3) ℝ) :
    ∃ r : Fin 4, 0 < symmetricK R r r ∧ ∀ j, quaternionFromMatrix Real.sqrt R j =
      symmetricK R r j * ((1 / 2) / Real.sqrt (symmetricK R r r)) := by
  have key : ∀ x : ℝ, 0 < x → 1 / 2 * Real.sqrt x = x * (1 / 2 / Real.sqrt x) := by
    intro x hx
    have hs : Real.sqrt x * Real.sqrt x = x := Real.mul_self_sqrt hx.le
    have hs0 : Real.sqrt x ≠ 0 := (Real.sqrt_pos.2 hx).ne'
    field_simp
    linarith
  by_cases ht : R 0 0 + R 1 1 + R 2 2 > 0
  · have hpos : 0 < symmetricK R 0 0 := by simp [symmetricK]; linarith
    refine ⟨0, hpos, ?_⟩
    have hk := key _ hpos
    have e : R 0 0 + R 1 1 + R 2 2 + 1 = symmetricK R 0 0 := by simp [symmetricK]; ring
    intro j
    fin_cases j
    · simp [quaternionFromMatrix, ht, e]
      simpa using hk
    · simp [quaternionFromMatrix, ht, e]; simp [symmetricK]
    · simp [quaternionFromMatrix, ht, e]; simp [symmetricK]
    · simp [quaternionFromMatrix, ht, e]; simp [symmetricK]
  · have ht' : R 0 0 + R 1 1 + R 2 2 ≤ 0 := not_lt.1 ht
    by_cases h1 : R 1 1 > R 0 0
    · by_cases h2 : R 2 2 > R 1 1
      · have hpos : 0 < symmetricK R 3 3 := by simp [symmetricK]; linarith
        refine ⟨3, hpos, ?_⟩
        have hk := key _ hpos
        have e : R 2 2 - R 0 0 - R 1 1 + 1 = symmetricK R 3 3 := by simp [symmetricK]; ring
        intro j
        fin_cases j
        · simp [quaternionFromMatrix, ht, h1, h2, e]; simp [symmetricK]
        · simp [quaternionFromMatrix, ht, h1, h2, e]; simp [symmetricK]
        · simp [quaternionFromMatrix, ht, h1, h2, e]; simp [symmetricK]
        · simp [quaternionFromMatrix, ht, h1, h2, e]
          simpa using hk
      · have h2' : R 2 2 ≤ R 1 1 := not_lt.1 h2
        have hpos : 0 < symmetricK R 2 2 := by simp [symmetricK]; linarith
        refine ⟨2, hpos, ?_⟩
        have hk := key _ hpos
        have e : R 1 1 - R 2 2 - R 0 0 + 1 = symmetricK R 2 2 := by simp [symmetricK]; ring
        intro j
        fin_cases j
        · simp [quaternionFromMatrix, ht, h1, h2, e]; simp [symmetricK]
        · simp [quaternionFromMatrix, ht, h1, h2, e]; simp [symmetricK]
        · simp [quaternionFromMatrix, ht, h1, h2, e]
          simpa using hk
        · simp [quaternionFromMatrix, ht, h1, h2, e]; simp [symmetricK]; left; ring
    · have h1' : R 1 1 ≤ R 0 0 := not_lt.1 h1
      by_cases h2 : R 2 2 > R 0 0
      · have hpos : 0 < symmetricK R 3 3 := by simp [symmetricK]; linarith
        refine ⟨3, hpos, ?_⟩
        have hk := key _ hpos
        have e : R 2 2 - R 0 0 - R 1 1 + 1 = symmetricK R 3 3 := by simp [symmetricK]; ring
        intro j
        fin_cases j
        · simp [quaternionFromMatrix, ht, h1, h2, e]; simp [symmetricK]
        · simp [quaternionFromMatrix, ht, h1, h2, e]; simp [symmetricK]
        · simp [quaternionFromMatrix, ht, h1, h2, e]; simp [symmetricK]
        · simp [quaternionFromMatrix, ht, h1, h2, e]
          simpa using hk
      · have h2' : R 2 2 ≤ R 0 0 := not_lt.1 h2
        have hpos : 0 < symmetricK R 1 1 := by simp [symmetricK]; linarith
        refine ⟨1, hpos, ?_⟩
        have hk := key _ hpos
        have e : R 0 0 - R 1 1 - R 2 2 + 1 = symmetricK R 1 1 := by simp [symmetricK]; ring
        intro j
        fin_cases j
        · simp [quaternionFromMatrix, ht, h1, h2, e]; simp [symmetricK]
        · simp [quaternionFromMatrix, ht, h1, h2, e]
          simpa using hk
        · simp [quaternionFromMatrix, ht, h1, h2, e]; simp [symmetricK]; left; ring
        · simp [quaternionFromMatrix, ht, h1, h2, e]; simp [symmetricK]; left; ring

/-! ## Lemmas: estimator and refiner -/

theorem vec4_eta (q : Fin 4 → α) : ![q 0, q 1, q 2, q 3] = q := by
  ext i
  fin_cases i <;> rfl

theorem NormalizeQuaternion_of_unit (q : Fin 4 → ℝ) (hq : squaredNorm q = 1) :
    NormalizeQuaternion Real.sqrt q = q := by
  unfold NormalizeQuaternion norm
  rw [hq]
  simp

theorem quaternion_round_trip (R : Matrix (Fin 3) (Fin 3) ℝ) (h : IsProperRotation R) :
    QuaternionToRotationMatrix Real.sqrt (RotationMatrixToQuaternion Real.sqrt R) = R := by
  have F := rotFacts_of_rotation R h.1 h.2
  obtain ⟨r, hpos, hrow⟩ := quaternionFromMatrix_row R
  have hp := toRotationMatrix_of_products R (quaternionFromMatrix Real.sqrt R)
    (products_of_row R F r hpos _ hrow)
  unfold QuaternionToRotationMatrix RotationMatrixToQuaternion
  simp only [vec4_eta]
  rw [NormalizeQuaternion_of_unit _ hp.2]
  exact hp.1

theorem resize_two (v : List β) (d : β) :
    ∃ a b, resize v 2 d = [a, b] := by
  rcases v with _ | ⟨a, _ | ⟨b, w⟩⟩
  · exact ⟨d, d, rfl⟩
  · exact ⟨a, d, rfl⟩
  · exact ⟨a, b, by simp [resize]⟩

theorem coeff_of_inRange (v : List β) (i : Int) (h : SharedFocalOptimizer3.InRange v i) :
    ∃ x, coeff v i = some x := by
  obtain ⟨h0, h1⟩ := h
  refine ⟨v.get ⟨i.toNat, h1⟩, ?_⟩
  simp [coeff, h0, List.getElem?_eq_getElem h1]

theorem forEachIndex_add (mk : Int → Option (ResidualBlock α L))
    (body : Int → Problem α L PO → Option (Problem α L PO))
    (hbody : ∀ i p, body i p = (mk i).map fun blk =>
      p.AddResidualBlock blk.cost_function blk.loss_function blk.parameter_blocks)
    (idx : List Int) (hidx : ∀ i ∈ idx, ∃ blk, mk i = some blk) (p : Problem α L PO) :
    ∃ bs, idx.map mk = bs.map some ∧ forEachIndex body idx p = some (addBlocks p bs) := by
  induction idx generalizing p with
  | nil => exact ⟨[], rfl, rfl⟩
  | cons i rest ih =>
    obtain ⟨blk, hblk⟩ := hidx i (List.mem_cons_self _ _)
    obtain ⟨bs, hbs, hrun⟩ := ih (fun j hj => hidx j (List.mem_cons_of_mem _ hj))
      (p.AddResidualBlock blk.cost_function blk.loss_function blk.parameter_blocks)
    refine ⟨blk :: bs, ?_, ?_⟩
    · simp [hblk, hbs]
    · simp only [forEachIndex, hbody, hblk, Option.map_some']
      rw [hrun]
      rfl

theorem forEachIndex_skip (idx : List Int) (p : Problem α L PO) :
    forEachIndex (fun _ q => some q) idx p = some p := by
  induction idx with
  | nil => rfl
  | cons i rest ih => simpa [forEachIndex] using ih

theorem addBlocks_append (p : Problem α L PO) (bs cs : List (ResidualBlock α L)) :
    addBlocks (addBlocks p bs) cs = addBlocks p (bs ++ cs) := by
  simp [addBlocks, List.foldl_append]

theorem reproj0Body_eq (o : SharedFocalOptimizer3 α L PO SO S) (i : Int)
    (p : Problem α L PO) :
    SharedFocalOptimizer3.reproj0Body o (SharedFocalOptimizer3.lossOrTrivial
        o.config_.reproj_loss_function) i p =
      (reprojBlock0 o i).map fun blk =>
        p.AddResidualBlock blk.cost_function blk.loss_function blk.parameter_blocks := by
  unfold SharedFocalOptimizer3.reproj0Body reprojBlock0
  cases coeff o.uncert_weight_ i <;> cases coeff o.x0_ i <;> cases coeff o.x1_ i <;>
    cases coeff o.d0_ i <;> rfl

theorem reproj1Body_eq (o : SharedFocalOptimizer3 α L PO SO S) (i : Int)
    (p : Problem α L PO) :
    SharedFocalOptimizer3.reproj1Body o (SharedFocalOptimizer3.lossOrTrivial
        o.config_.reproj_loss_function) i p =
      (reprojBlock1 o i).map fun blk =>
        p.AddResidualBlock blk.cost_function blk.loss_function blk.parameter_blocks := by
  unfold SharedFocalOptimizer3.reproj1Body reprojBlock1
  cases coeff o.uncert_weight_ i <;> cases coeff o.x1_ i <;> cases coeff o.x0_ i <;>
    cases coeff o.d1_ i <;> rfl

theorem sampsonBody_eq (o : SharedFocalOptimizer3 α L PO SO S)
    (hs : o.config_.use_sampson = true) (i : Int) (p : Problem α L PO) :
    SharedFocalOptimizer3.sampsonBody o (SharedFocalOptimizer3.lossOrTrivial
        o.config_.sampson_loss_function) i p =
      (sampsonBlock o i).map fun blk =>
        p.AddResidualBlock blk.cost_function blk.loss_function blk.parameter_blocks := by
  unfold SharedFocalOptimizer3.sampsonBody sampsonBlock
  rw [if_pos hs]
  cases coeff o.uncert_weight_ i <;> cases coeff o.x0_ i <;> cases coeff o.x1_ i <;> rfl

theorem sampsonBody_skip (o : SharedFocalOptimizer3 α L PO SO S)
    (hs : o.config_.use_sampson = false) (lf : LossFunction L) :
    SharedFocalOptimizer3.sampsonBody o lf = fun _ q => some q := by
  funext i p
  simp [SharedFocalOptimizer3.sampsonBody, hs]

theorem reprojBlock0_some (o : SharedFocalOptimizer3 α L PO SO S) (i : Int)
    (h : SharedFocalOptimizer3.InRange o.uncert_weight_ i ∧
      SharedFocalOptimizer3.InRange o.x0_ i ∧ SharedFocalOptimizer3.InRange o.x1_ i ∧
      SharedFocalOptimizer3.InRange o.d0_ i) :
    ∃ blk, reprojBlock0 o i = some blk := by
  obtain ⟨w, hw⟩ := coeff_of_inRange _ _ h.1
  obtain ⟨a, ha⟩ := coeff_of_inRange _ _ h.2.1
  obtain ⟨b, hb⟩ := coeff_of_inRange _ _ h.2.2.1
  obtain ⟨d, hd⟩ := coeff_of_inRange _ _ h.2.2.2
  simp [reprojBlock0, hw, ha, hb, hd]

theorem reprojBlock1_some (o : SharedFocalOptimizer3 α L PO SO S) (i : Int)
    (h : SharedFocalOptimizer3.InRange o.uncert_weight_ i ∧
      SharedFocalOptimizer3.InRange o.x1_ i ∧ SharedFocalOptimizer3.InRange o.x0_ i ∧
      SharedFocalOptimizer3.InRange o.d1_ i) :
    ∃ blk, reprojBlock1 o i = some blk := by
  obtain ⟨w, hw⟩ := coeff_of_inRange _ _ h.1
  obtain ⟨a, ha⟩ := coeff_of_inRange _ _ h.2.1
  obtain ⟨b, hb⟩ := coeff_of_inRange _ _ h.2.2.1
  obtain ⟨d, hd⟩ := coeff_of_inRange _ _ h.2.2.2
  simp [reprojBlock1, hw, ha, hb, hd]

theorem sampsonBlock_some (o : SharedFocalOptimizer3 α L PO SO S) (i : Int)
    (h : SharedFocalOptimizer3.InRange o.uncert_weight_ i ∧
      SharedFocalOptimizer3.InRange o.x0_ i ∧ SharedFocalOptimizer3.InRange o.x1_ i) :
    ∃ blk, sampsonBlock o i = some blk := by
  obtain ⟨w, hw⟩ := coeff_of_inRange _ _ h.1
  obtain ⟨a, ha⟩ := coeff_of_inRange _ _ h.2.1
  obtain ⟨b, hb⟩ := coeff_of_inRange _ _ h.2.2
  simp [sampsonBlock, hw, ha, hb]

/-- The loops of the enabled families run to the end and leave exactly the blocks of
`blocksPerIndex`. -/
theorem assemble_eq (o : SharedFocalOptimizer3 α L PO SO S)
    (h : o.IndicesInRange) :
    ∃ bs, blocksPerIndex o = bs.map some ∧
      ((if o.config_.use_reprojection then
            (forEachIndex (SharedFocalOptimizer3.reproj0Body o
              (SharedFocalOptimizer3.lossOrTrivial o.config_.reproj_loss_function))
              o.indices_reproj_0_ (Problem.new o.config_.problem_options)).bind
            fun problem => forEachIndex (SharedFocalOptimizer3.reproj1Body o
              (SharedFocalOptimizer3.lossOrTrivial o.config_.reproj_loss_function))
              o.indices_reproj_1_ problem
          else some (Problem.new o.config_.problem_options)).bind fun problem =>
        forEachIndex (SharedFocalOptimizer3.sampsonBody o
          (SharedFocalOptimizer3.lossOrTrivial o.config_.sampson_loss_function))
          o.indices_sampson_ problem) =
      some (addBlocks (Problem.new o.config_.problem_options) bs) := by
  obtain ⟨hr, hs⟩ := h
  have h1 : ∃ bs1, (if o.config_.use_reprojection then
        o.indices_reproj_0_.map (reprojBlock0 o) ++ o.indices_reproj_1_.map (reprojBlock1 o)
      else []) = bs1.map some ∧
      (if o.config_.use_reprojection then
          (forEachIndex (SharedFocalOptimizer3.reproj0Body o
            (SharedFocalOptimizer3.lossOrTrivial o.config_.reproj_loss_function))
            o.indices_reproj_0_ (Problem.new o.config_.problem_options)).bind
          fun problem => forEachIndex (SharedFocalOptimizer3.reproj1Body o
            (SharedFocalOptimizer3.lossOrTrivial o.config_.reproj_loss_function))
            o.indices_reproj_1_ problem
        else some (Problem.new o.config_.problem_options)) =
      some (addBlocks (Problem.new o.config_.problem_options) bs1) := by
    cases hu : o.config_.use_reprojection with
    | false => exact ⟨[], by simp, by simp [addBlocks]⟩
    | true =>
      obtain ⟨h0, h1⟩ := hr hu
      obtain ⟨b0, hb0, hrun0⟩ := forEachIndex_add (reprojBlock0 o) _ (reproj0Body_eq o)
        o.indices_reproj_0_ (fun i hi => reprojBlock0_some o i (h0 i hi))
        (Problem.new o.config_.problem_options)
      obtain ⟨b1, hb1, hrun1⟩ := forEachIndex_add (reprojBlock1 o) _ (reproj1Body_eq o)
        o.indices_reproj_1_ (fun i hi => reprojBlock1_some o i (h1 i hi))
        (addBlocks (Problem.new o.config_.problem_options) b0)
      refine ⟨b0 ++ b1, by simp [hb0, hb1], ?_⟩
      simp [hrun0, hrun1, addBlocks_append]
  obtain ⟨bs1, hbs1, hrun1⟩ := h1
  rw [hrun1]
  cases hu : o.config_.use_sampson with
  | false =>
    refine ⟨bs1, by simp [blocksPerIndex, hu, hbs1], ?_⟩
    simp [sampsonBody_skip o hu, forEachIndex_skip]
  | true =>
    obtain ⟨b2, hb2, hrun2⟩ := forEachIndex_add (sampsonBlock o) _ (sampsonBody_eq o hu)
      o.indices_sampson_ (fun i hi => sampsonBlock_some o i (hs hu i hi))
      (addBlocks (Problem.new o.config_.problem_options) bs1)
    refine ⟨bs1 ++ b2, by simp [blocksPerIndex, hu, hbs1, hb2], ?_⟩
    simp [hrun2, addBlocks_append]

theorem addBlocks_fields (p : Problem α L PO) (bs : List (ResidualBlock α L)) :
    (addBlocks p bs).residual_blocks = p.residual_blocks ++ bs ∧
    (addBlocks p bs).lower_bounds = p.lower_bounds ∧
    (addBlocks p bs).constant_blocks = p.constant_blocks ∧
    (addBlocks p bs).manifolds = p.manifolds ∧
    ∀ b, b ∈ (addBlocks p bs).parameter_blocks ↔
      b ∈ p.parameter_blocks ∨ ∃ blk ∈ bs, b ∈ blk.parameter_blocks := by
  induction bs generalizing p with
  | nil => simp [addBlocks]
  | cons blk rest ih =>
    obtain ⟨h1, h2, h3, h4, h5⟩ :=
      ih (p.AddResidualBlock blk.cost_function blk.loss_function blk.parameter_blocks)
    have e : addBlocks p (blk :: rest) = addBlocks
        (p.AddResidualBlock blk.cost_function blk.loss_function blk.parameter_blocks) rest := rfl
    rw [e]
    refine ⟨?_, ?_, ?_, ?_, ?_⟩
    · rw [h1]; simp [Problem.AddResidualBlock]
    · rw [h2]; rfl
    · rw [h3]; rfl
    · rw [h4]; rfl
    · intro b
      rw [h5]
      simp only [Problem.AddResidualBlock, List.mem_union_iff, List.mem_cons, exists_eq_or_imp]
      tauto

/-- Every block of `blocksPerIndex` has one of the three shapes of the source. -/
theorem blocksPerIndex_shape (o : SharedFocalOptimizer3 α L PO SO S)
    (bs : List (ResidualBlock α L)) (hbs : blocksPerIndex o = bs.map some) :
    ∀ blk ∈ bs,
      (o.config_.use_reprojection = true ∧ o.indices_reproj_0_ ≠ [] ∧
        blk.cost_function.family = .reproj_0 ∧
        blk.parameter_blocks = [.offset0_, .qvec_, .tvec_, .focal_]) ∨
      (o.config_.use_reprojection = true ∧ o.indices_reproj_1_ ≠ [] ∧
        blk.cost_function.family = .reproj_1 ∧
        blk.parameter_blocks = [.scale_, .offset1_, .qvec_, .tvec_, .focal_]) ∨
      (o.config_.use_sampson = true ∧ o.indices_sampson_ ≠ [] ∧
        blk.cost_function.family = .sampson ∧
        blk.parameter_blocks = [.qvec_, .tvec_, .focal_]) := by
  intro blk hblk
  have hm : some blk ∈ blocksPerIndex o := by
    rw [hbs]; exact List.mem_map_of_mem _ hblk
  unfold blocksPerIndex at hm
  rw [List.mem_append] at hm
  rcases hm with hm | hm
  · cases hu : o.config_.use_reprojection with
    | false => simp [hu] at hm
    | true =>
      simp only [hu, if_true, List.mem_append, List.mem_map] at hm
      rcases hm with ⟨i, hi, hb⟩ | ⟨i, hi, hb⟩
      · left
        refine ⟨rfl, List.ne_nil_of_mem hi, ?_⟩
        unfold reprojBlock0 at hb
        split at hb
        · cases hb; exact ⟨rfl, rfl⟩
        · cases hb
      · right; left
        refine ⟨rfl, List.ne_nil_of_mem hi, ?_⟩
        unfold reprojBlock1 at hb
        split at hb
        · cases hb; exact ⟨rfl, rfl⟩
        · cases hb
  · cases hu : o.config_.use_sampson with
    | false => simp [hu] at hm
    | true =>
      simp only [hu, if_true, List.mem_map] at hm
      obtain ⟨i, hi, hb⟩ := hm
      right; right
      refine ⟨rfl, List.ne_nil_of_mem hi, ?_⟩
      unfold sampsonBlock at hb
      split at hb
      · cases hb; exact ⟨rfl, rfl⟩
      · cases hb

theorem qvec_tvec_together (o : SharedFocalOptimizer3 α L PO SO S)
    (bs : List (ResidualBlock α L)) (hbs : blocksPerIndex o = bs.map some)
    (hq : ParameterBlock.qvec_ ∈
      (addBlocks (Problem.new o.config_.problem_options : Problem α L PO) bs).parameter_blocks) :
    ParameterBlock.tvec_ ∈
      (addBlocks (Problem.new o.config_.problem_options : Problem α L PO) bs).parameter_blocks := by
  rw [(addBlocks_fields _ bs).2.2.2.2] at hq ⊢
  rcases hq with hq | ⟨blk, hblk, -⟩
  · simp [Problem.new] at hq
  · right
    refine ⟨blk, hblk, ?_⟩
    rcases blocksPerIndex_shape o bs hbs blk hblk with h | h | h
    · rw [h.2.2.2]; simp
    · rw [h.2.2.2]; simp
    · rw [h.2.2.2]; simp

theorem constrain_chain [Field α] (o : SharedFocalOptimizer3 α L PO SO S)
    (P : Problem α L PO)
    (hqt : ParameterBlock.qvec_ ∈ P.parameter_blocks → ParameterBlock.tvec_ ∈ P.parameter_blocks) :
    ((if P.HasParameterBlock .scale_ = true then
          P.SetParameterLowerBound .scale_ 0 (1 / 100) else some P).bind fun a =>
      (if a.HasParameterBlock .offset0_ = true then
          a.SetParameterLowerBound .offset0_ 0 (-o.min_depth_ 0 + 1 / 100) else some a).bind
        fun a =>
        (if a.HasParameterBlock .offset1_ = true then
            a.SetParameterLowerBound .offset1_ 0 (-o.min_depth_ 1 + 1 / 100) else some a).bind
          fun a =>
          (if a.HasParameterBlock .qvec_ = true then
              if o.config_.constant_pose = true then
                (a.SetParameterBlockConstant .qvec_).bind fun problem =>
                  problem.SetParameterBlockConstant .tvec_
              else a.SetManifold .qvec_ Manifold.QuaternionManifold
            else some a)) = some (constrain o P) := by
  simp only [Problem.HasParameterBlock, Problem.SetParameterLowerBound,
    Problem.SetParameterBlockConstant, Problem.SetManifold, constrain, decide_eq_true_eq] at *
  by_cases h1 : ParameterBlock.scale_ ∈ P.parameter_blocks <;>
  by_cases h2 : ParameterBlock.offset0_ ∈ P.parameter_blocks <;>
  by_cases h3 : ParameterBlock.offset1_ ∈ P.parameter_blocks <;>
  by_cases h4 : ParameterBlock.qvec_ ∈ P.parameter_blocks <;>
  cases h5 : o.config_.constant_pose <;>
  simp [h1, h2, h3, h4, h5, ParameterBlock.size, Manifold.AmbientSize, hqt]

theorem SetUp_eq [Field α] (o : SharedFocalOptimizer3 α L PO SO S)
    (h : o.IndicesInRange) :
    ∃ bs, blocksPerIndex o = bs.map some ∧
      o.SetUp = some { o with
        problem_ := some (constrain o (addBlocks (Problem.new o.config_.problem_options) bs)) } := by
  obtain ⟨bs, hbs, hrun⟩ := assemble_eq o h
  refine ⟨bs, hbs, ?_⟩
  have hc := constrain_chain o _ (qvec_tvec_together o bs hbs)
  obtain ⟨P1, hX, hF⟩ := Option.bind_eq_some.1 hrun
  unfold SharedFocalOptimizer3.SetUp
  simp only [bind, pure]
  rw [hX, Option.some_bind, hF, Option.some_bind]
  simp only [← Option.bind_assoc] at hc ⊢
  rw [hc]
  rfl

/-- What `SetUp` leaves in `problem_`: the blocks of `blocksPerIndex`, their parameter
blocks, the lower bounds of the registered scalars, and the pose treatment. -/
theorem SetUp_spec [Field α] (o : SharedFocalOptimizer3 α L PO SO S)
    (h : o.IndicesInRange) :
    ∃ p : Problem α L PO, o.SetUp = some { o with problem_ := some p } ∧
      p.residual_blocks.map some = blocksPerIndex o ∧
      (∀ b, b ∈ p.parameter_blocks ↔ ∃ blk ∈ p.residual_blocks, b ∈ blk.parameter_blocks) ∧
      p.lower_bounds =
        (if ParameterBlock.offset1_ ∈ p.parameter_blocks then
          [(ParameterBlock.offset1_, 0, -o.min_depth_ 1 + 1 / 100)] else []) ++
        (if ParameterBlock.offset0_ ∈ p.parameter_blocks then
          [(ParameterBlock.offset0_, 0, -o.min_depth_ 0 + 1 / 100)] else []) ++
        (if ParameterBlock.scale_ ∈ p.parameter_blocks then
          [(ParameterBlock.scale_, 0, 1 / 100)] else []) ∧
      p.constant_blocks =
        (if 0 < p.residual_blocks.length ∧ o.config_.constant_pose = true then
          [ParameterBlock.tvec_, ParameterBlock.qvec_] else []) ∧
      p.manifolds =
        (if 0 < p.residual_blocks.length ∧ ¬ o.config_.constant_pose = true then
          [(ParameterBlock.qvec_, Manifold.QuaternionManifold)] else []) := by
  obtain ⟨bs, hbs, hrun⟩ := SetUp_eq o h
  obtain ⟨f1, f2, f3, f4, f5⟩ :=
    addBlocks_fields (Problem.new o.config_.problem_options : Problem α L PO) bs
  have g1 : (addBlocks (Problem.new o.config_.problem_options : Problem α L PO)
      bs).residual_blocks = bs := by rw [f1]; rfl
  have g2 : (addBlocks (Problem.new o.config_.problem_options : Problem α L PO)
      bs).lower_bounds = [] := by rw [f2]; rfl
  have g3 : (addBlocks (Problem.new o.config_.problem_options : Problem α L PO)
      bs).constant_blocks = [] := by rw [f3]; rfl
  have g4 : (addBlocks (Problem.new o.config_.problem_options : Problem α L PO)
      bs).manifolds = [] := by rw [f4]; rfl
  have g5 : ∀ b, b ∈ (addBlocks (Problem.new o.config_.problem_options : Problem α L PO)
      bs).parameter_blocks ↔ ∃ blk ∈ bs, b ∈ blk.parameter_blocks := by
    intro b
    rw [f5]
    simp [Problem.new]
  have hq : ParameterBlock.qvec_ ∈
      (addBlocks (Problem.new o.config_.problem_options : Problem α L PO) bs).parameter_blocks ↔
      0 < bs.length := by
    rw [g5]
    constructor
    · rintro ⟨blk, hblk, -⟩
      exact List.length_pos_of_mem hblk
    · intro hne
      obtain ⟨blk, rest, rfl⟩ := List.exists_cons_of_ne_nil (List.length_pos.1 hne)
      refine ⟨blk, List.mem_cons_self _ _, ?_⟩
      rcases blocksPerIndex_shape o _ hbs blk (List.mem_cons_self _ _) with h | h | h
      · rw [h.2.2.2]; simp
      · rw [h.2.2.2]; simp
      · rw [h.2.2.2]; simp
  refine ⟨_, hrun, ?_, ?_, ?_, ?_, ?_⟩
  · simp only [constrain, g1, hbs]
  · intro b
    simp only [constrain, g1]
    exact g5 b
  · simp only [constrain, g2, Problem.HasParameterBlock, decide_eq_true_eq, List.append_nil]
  · simp only [constrain, g3, g1, Problem.HasParameterBlock, decide_eq_true_eq, hq,
      List.append_nil]
  · simp only [constrain, g4, g1, Problem.HasParameterBlock, decide_eq_true_eq, hq,
      List.append_nil]

theorem sampleOptimizer_inRange : sampleOptimizer.IndicesInRange := by
  simp [SharedFocalOptimizer3.IndicesInRange, SharedFocalOptimizer3.InRange, sampleOptimizer,
    SharedFocalOptimizer3.new, sampleConfig]

theorem emptyOptimizer_inRange : emptyOptimizer.IndicesInRange := by
  simp [SharedFocalOptimizer3.IndicesInRange, SharedFocalOptimizer3.InRange, emptyOptimizer,
    SharedFocalOptimizer3.new, sampleConfig]

theorem reprojBlock0_shape (o : SharedFocalOptimizer3 α L PO SO S) (i : Int)
    (h : SharedFocalOptimizer3.InRange o.uncert_weight_ i ∧
      SharedFocalOptimizer3.InRange o.x0_ i ∧ SharedFocalOptimizer3.InRange o.x1_ i ∧
      SharedFocalOptimizer3.InRange o.d0_ i) :
    (reprojBlock0 o i).map ResidualBlock.shape =
      some (ResidualFamily.reproj_0, [ParameterBlock.offset0_, .qvec_, .tvec_, .focal_]) := by
  obtain ⟨w, hw⟩ := coeff_of_inRange _ _ h.1
  obtain ⟨a, ha⟩ := coeff_of_inRange _ _ h.2.1
  obtain ⟨b, hb⟩ := coeff_of_inRange _ _ h.2.2.1
  obtain ⟨d, hd⟩ := coeff_of_inRange _ _ h.2.2.2
  simp [reprojBlock0, hw, ha, hb, hd, ResidualBlock.shape, CostFunction.family]

theorem reprojBlock1_shape (o : SharedFocalOptimizer3 α L PO SO S) (i : Int)
    (h : SharedFocalOptimizer3.InRange o.uncert_weight_ i ∧
      SharedFocalOptimizer3.InRange o.x1_ i ∧ SharedFocalOptimizer3.InRange o.x0_ i ∧
      SharedFocalOptimizer3.InRange o.d1_ i) :
    (reprojBlock1 o i).map ResidualBlock.shape =
      some (ResidualFamily.reproj_1,
        [ParameterBlock.scale_, .offset1_, .qvec_, .tvec_, .focal_]) := by
  obtain ⟨w, hw⟩ := coeff_of_inRange _ _ h.1
  obtain ⟨a, ha⟩ := coeff_of_inRange _ _ h.2.1
  obtain ⟨b, hb⟩ := coeff_of_inRange _ _ h.2.2.1
  obtain ⟨d, hd⟩ := coeff_of_inRange _ _ h.2.2.2
  simp [reprojBlock1, hw, ha, hb, hd, ResidualBlock.shape, CostFunction.family]

theorem sampsonBlock_shape (o : SharedFocalOptimizer3 α L PO SO S) (i : Int)
    (h : SharedFocalOptimizer3.InRange o.uncert_weight_ i ∧
      SharedFocalOptimizer3.InRange o.x0_ i ∧ SharedFocalOptimizer3.InRange o.x1_ i) :
    (sampsonBlock o i).map ResidualBlock.shape =
      some (ResidualFamily.sampson, [ParameterBlock.qvec_, .tvec_, .focal_]) := by
  obtain ⟨w, hw⟩ := coeff_of_inRange _ _ h.1
  obtain ⟨a, ha⟩ := coeff_of_inRange _ _ h.2.1
  obtain ⟨b, hb⟩ := coeff_of_inRange _ _ h.2.2
  simp [sampsonBlock, hw, ha, hb, ResidualBlock.shape, CostFunction.family]

theorem blocksPerIndex_shapes (o : SharedFocalOptimizer3 α L PO SO S)
    (h : o.IndicesInRange) :
    (blocksPerIndex o).map (Option.map ResidualBlock.shape) =
      ((if o.config_.use_reprojection then
          o.indices_reproj_0_.map (fun _ =>
            (ResidualFamily.reproj_0, [ParameterBlock.offset0_, .qvec_, .tvec_, .focal_])) ++
          o.indices_reproj_1_.map (fun _ =>
            (ResidualFamily.reproj_1,
              [ParameterBlock.scale_, .offset1_, .qvec_, .tvec_, .focal_]))
        else []) ++
      (if o.config_.use_sampson then
          o.indices_sampson_.map (fun _ =>
            (ResidualFamily.sampson, [ParameterBlock.qvec_, .tvec_, .focal_]))
        else [])).map some := by
  obtain ⟨hr, hs⟩ := h
  have e1 : (if o.config_.use_reprojection then
        o.indices_reproj_0_.map (reprojBlock0 o) ++ o.indices_reproj_1_.map (reprojBlock1 o)
      else []).map (Option.map ResidualBlock.shape) =
      (if o.config_.use_reprojection then
          o.indices_reproj_0_.map (fun _ =>
            (ResidualFamily.reproj_0, [ParameterBlock.offset0_, .qvec_, .tvec_, .focal_])) ++
          o.indices_reproj_1_.map (fun _ =>
            (ResidualFamily.reproj_1,
              [ParameterBlock.scale_, .offset1_, .qvec_, .tvec_, .focal_]))
        else []).map some := by
    cases hu : o.config_.use_reprojection with
    | false => simp
    | true =>
      obtain ⟨h0, h1⟩ := hr hu
      simp only [if_true, List.map_append, List.map_map]
      congr 1
      · exact List.map_congr_left fun i hi => reprojBlock0_shape o i (h0 i hi)
      · exact List.map_congr_left fun i hi => reprojBlock1_shape o i (h1 i hi)
  have e2 : (if o.config_.use_sampson then o.indices_sampson_.map (sampsonBlock o)
      else []).map (Option.map ResidualBlock.shape) =
      (if o.config_.use_sampson then
          o.indices_sampson_.map (fun _ =>
            (ResidualFamily.sampson, [ParameterBlock.qvec_, .tvec_, .focal_]))
        else []).map some := by
    cases hu : o.config_.use_sampson with
    | false => simp
    | true =>
      simp only [if_true, List.map_map]
      exact List.map_congr_left fun i hi => sampsonBlock_shape o i (hs hu i hi)
  unfold blocksPerIndex
  rw [List.map_append, List.map_append, e1, e2]

theorem solve_frame (sz : ResidualSizes) (ceres : CeresSolver α L PO SO S)
    (o o2 : SharedFocalOptimizer3 α L PO SO S) (p : Problem α L PO) (flag : Bool)
    (hp : o.problem_ = some p) (hs : o.Solve sz ceres = some (flag, o2))
    (b : ParameterBlock) (hb : b ∉ p.parameter_blocks) :
    o2.values.block b = o.values.block b := by
  unfold SharedFocalOptimizer3.Solve at hs
  rw [hp] at hs
  simp only at hs
  split at hs
  · cases hs; rfl
  · split at hs
    · cases hs
      cases b <;>
        simp [SharedFocalOptimizer3.values, SharedFocalOptimizer3.store,
          ParameterValues.block, Problem.HasParameterBlock, hb]
    · cases hs

theorem sampleSolver_keeps_constant : sampleSolver.KeepsConstantBlocks := by
  intro opts p v b hb
  by_cases hf : ParameterBlock.focal_ ∈ p.constant_blocks
  · simp [sampleSolver, hf]
  · have hne : b ≠ ParameterBlock.focal_ := fun e => hf (e ▸ hb)
    cases b <;> simp_all [sampleSolver, ParameterValues.block]

theorem blocksPerIndex_length (o : SharedFocalOptimizer3 α L PO SO S) :
    (blocksPerIndex o).length =
      (if o.config_.use_reprojection then
        o.indices_reproj_0_.length + o.indices_reproj_1_.length else 0) +
      (if o.config_.use_sampson then o.indices_sampson_.length else 0) := by
  unfold blocksPerIndex
  cases o.config_.use_reprojection <;> cases o.config_.use_sampson <;> simp [Nat.add_assoc]

theorem numResiduals_eq_zero_iff (sz : ResidualSizes) (hsz : sz.Positive)
    (p : Problem α L PO) : p.NumResiduals sz = 0 ↔ p.residual_blocks.length = 0 := by
  constructor
  · intro h0
    rcases hrb : p.residual_blocks with _ | ⟨blk, rest⟩
    · rfl
    · have hpos : 0 < blk.cost_function.num_residuals sz := by
        unfold CostFunction.num_residuals
        cases blk.cost_function.family
        · exact hsz.1
        · exact hsz.2.1
        · exact hsz.2.2
      unfold Problem.NumResiduals at h0
      rw [hrb] at h0
      simp only [List.map_cons, List.sum_cons] at h0
      omega
  · intro h0
    unfold Problem.NumResiduals
    rw [List.length_eq_zero.1 h0]
    rfl

/-! ## Lemmas: epipolar constraint and Sampson error -/

theorem compute_sampson_error_eq_locals [Field α] (x1 x2 : Fin 2 → α)
    (E : Matrix (Fin 3) (Fin 3) α) :
    compute_sampson_error x1 x2 E =
      sampson_C x1 x2 E * sampson_C x1 x2 E / (sampson_Cx x1 E + sampson_Cy x2 E) := rfl

theorem sampson_C_eq_epipolarConstraint [Field α] (x1 x2 : Fin 2 → α)
    (E : Matrix (Fin 3) (Fin 3) α) :
    sampson_C x1 x2 E = epipolarConstraint x1 x2 E := by
  simp only [sampson_C, epipolarConstraint, homogeneous, Matrix.mulVec, Matrix.dotProduct,
    Fin.sum_univ_three]
  simp

theorem epipolarConstraint_projected [Field α] (R : Matrix (Fin 3) (Fin 3) α)
    (t X : Fin 3 → α) (hX : X 2 ≠ 0) (hY : (R.mulVec X + t) 2 ≠ 0) :
    epipolarConstraint (projectPoint X) (projectPoint (R.mulVec X + t))
      (to_essential_matrix R t) = 0 := by
  have hY2 : R 2 0 * X 0 + R 2 1 * X 1 + R 2 2 * X 2 + t 2 ≠ 0 := by
    simpa [Matrix.mulVec, Matrix.dotProduct, Fin.sum_univ_three] using hY
  simp only [epipolarConstraint, projectPoint, homogeneous, to_essential_matrix,
    Matrix.mulVec, Matrix.dotProduct, Fin.sum_univ_three, Matrix.mul_apply, Pi.add_apply]
  simp
  field_simp
  ring

theorem sampleProjection_depths :
    samplePoint 2 ≠ 0 ∧ (quarterTurn.mulVec samplePoint + sampleTranslation) 2 ≠ 0 := by
  constructor
  · simp [samplePoint]
  · simp [samplePoint, quarterTurn, sampleTranslation, Matrix.mulVec, Matrix.dotProduct,
      Fin.sum_univ_three]
    norm_num

theorem sampson_denominator_eq [Field α] (x1 x2 : Fin 2 → α)
    (E : Matrix (Fin 3) (Fin 3) α) :
    sampson_Cx x1 E + sampson_Cy x2 E =
      (E.mulVec (homogeneous x1) 0) ^ 2 + (E.mulVec (homogeneous x1) 1) ^ 2 +
        (E.transpose.mulVec (homogeneous x2) 0) ^ 2 +
        (E.transpose.mulVec (homogeneous x2) 1) ^ 2 := by
  simp only [sampson_Cx, sampson_Cy, homogeneous, Matrix.mulVec, Matrix.dotProduct,
    Fin.sum_univ_three, Matrix.transpose_apply]
  simp
  ring

theorem four_squares_eq_zero_iff [LinearOrderedField α] (a b c d : α) :
    a ^ 2 + b ^ 2 + c ^ 2 + d ^ 2 = 0 ↔ a = 0 ∧ b = 0 ∧ c = 0 ∧ d = 0 := by
  constructor
  · intro h
    have ha := sq_nonneg a
    have hb := sq_nonneg b
    have hc := sq_nonneg c
    have hd := sq_nonneg d
    refine ⟨?_, ?_, ?_, ?_⟩
    · exact pow_eq_zero_iff (two_ne_zero) |>.1 (by linarith)
    · exact pow_eq_zero_iff (two_ne_zero) |>.1 (by linarith)
    · exact pow_eq_zero_iff (two_ne_zero) |>.1 (by linarith)
    · exact pow_eq_zero_iff (two_ne_zero) |>.1 (by linarith)
  · rintro ⟨rfl, rfl, rfl, rfl⟩
    simp

/-! ## The claims -/

/-- C1: for the optimizer constructed from an input pose, with indices in range and cost
functions of positive residual dimension, `Solve` after `SetUp` returns `false` if and only if
the assembled problem has zero residuals, which happens exactly when each residual family is
disabled or has only empty pools; in that case `Solve` returns without calling the minimiser
(for every minimiser the optimizer is left as it was) and `GetSolution` returns the
translation, scale, offset0, offset1 and focal length of the input pose. -/
theorem solve_false_iff_no_residuals [LinearOrderedField α] (sqrt : α → α)
    (x0 x1 : List (Fin 3 → α)) (depth0 depth1 : List α)
    (indices_reproj_0 indices_reproj_1 indices_sampson : List Int)
    (min_depth : Fin 2 → α) (pose : PoseScaleOffsetSharedFocal α) (uncert_weight : List α)
    (config : SharedFocalOptimizerConfig α L PO SO) (final : Bool) (summary : S)
    (o : SharedFocalOptimizer3 α L PO SO S)
    (ho : o = SharedFocalOptimizer3.new sqrt x0 x1 depth0 depth1 indices_reproj_0
      indices_reproj_1 indices_sampson min_depth pose uncert_weight config final summary)
    (sz : ResidualSizes) (hsz : sz.Positive) (hrange : o.IndicesInRange) :
    ∃ p : Problem α L PO,
      o.SetUp = some { o with problem_ := some p } ∧
      (∀ ceres : CeresSolver α L PO SO S,
        (∃ o2, SharedFocalOptimizer3.Solve sz ceres { o with problem_ := some p } =
          some (false, o2)) ↔ p.NumResiduals sz = 0) ∧
      (p.NumResiduals sz = 0 ↔
        (config.use_reprojection = false ∨ (indices_reproj_0 = [] ∧ indices_reproj_1 = [])) ∧
        (config.use_sampson = false ∨ indices_sampson = [])) ∧
      (p.NumResiduals sz = 0 →
        (∀ ceres : CeresSolver α L PO SO S,
          SharedFocalOptimizer3.Solve sz ceres { o with problem_ := some p } =
            some (false, { o with problem_ := some p })) ∧
        (SharedFocalOptimizer3.GetSolution sqrt { o with problem_ := some p }).t = pose.t ∧
        (SharedFocalOptimizer3.GetSolution sqrt { o with problem_ := some p }).scale =
          pose.scale ∧
        (SharedFocalOptimizer3.GetSolution sqrt { o with problem_ := some p }).offset0 =
          pose.offset0 ∧
        (SharedFocalOptimizer3.GetSolution sqrt { o with problem_ := some p }).offset1 =
          pose.offset1 ∧
        (SharedFocalOptimizer3.GetSolution sqrt { o with problem_ := some p }).focal =
          pose.focal) := by
  obtain ⟨p, hp, hblocks, -⟩ := SetUp_spec _ hrange
  have hlen : p.residual_blocks.length =
      (if config.use_reprojection then indices_reproj_0.length + indices_reproj_1.length
        else 0) + (if config.use_sampson then indices_sampson.length else 0) := by
    have h1 := congrArg List.length hblocks
    rw [List.length_map, blocksPerIndex_length] at h1
    rw [h1, ho]
    rfl
  have hz := numResiduals_eq_zero_iff sz hsz p
  refine ⟨p, hp, ?_, ?_, ?_⟩
  · intro ceres
    unfold SharedFocalOptimizer3.Solve
    by_cases h0 : p.NumResiduals sz = 0
    · simp [h0]
    · constructor
      · rintro ⟨o2, hs⟩
        simp only [if_neg h0] at hs
        split at hs <;> cases hs
      · intro h
        exact absurd h h0
  · rw [hz, hlen]
    cases config.use_reprojection <;> cases config.use_sampson <;>
      simp [List.length_eq_zero]
  · intro h0
    refine ⟨?_, ?_, ?_, ?_, ?_, ?_⟩
    · intro ceres
      unfold SharedFocalOptimizer3.Solve
      simp [h0]
    all_goals rw [ho]; rfl

/-- Witness of C1 on the optimizer with empty pools. -/
theorem solve_false_iff_no_residuals_witness :
    (emptyOptimizer = SharedFocalOptimizer3.new (fun x => x) [![1, 2, 1], ![3, 4, 1]]
      [![5, 6, 1], ![7, 8, 1]] [1, 2] [3, 4] [] [] [] ![1 / 2, 1 / 3] samplePose [1, 1]
      sampleConfig false 0) ∧
    sampleSizes.Positive ∧ emptyOptimizer.IndicesInRange ∧
    ∃ p : Problem ℚ Unit Unit,
      emptyOptimizer.SetUp = some { emptyOptimizer with problem_ := some p } ∧
      (∀ ceres : CeresSolver ℚ Unit Unit Unit Nat,
        (∃ o2, SharedFocalOptimizer3.Solve sampleSizes ceres
          { emptyOptimizer with problem_ := some p } = some (false, o2)) ↔
          p.NumResiduals sampleSizes = 0) ∧
      (p.NumResiduals sampleSizes = 0 ↔
        (sampleConfig.use_reprojection = false ∨
          (([] : List Int) = [] ∧ ([] : List Int) = [])) ∧
        (sampleConfig.use_sampson = false ∨ ([] : List Int) = [])) ∧
      (p.NumResiduals sampleSizes = 0 →
        (∀ ceres : CeresSolver ℚ Unit Unit Unit Nat,
          SharedFocalOptimizer3.Solve sampleSizes ceres
            { emptyOptimizer with problem_ := some p } =
            some (false, { emptyOptimizer with problem_ := some p })) ∧
        (SharedFocalOptimizer3.GetSolution (fun x => x)
          { emptyOptimizer with problem_ := some p }).t = samplePose.t ∧
        (SharedFocalOptimizer3.GetSolution (fun x => x)
          { emptyOptimizer with problem_ := some p }).scale = samplePose.scale ∧
        (SharedFocalOptimizer3.GetSolution (fun x => x)
          { emptyOptimizer with problem_ := some p }).offset0 = samplePose.offset0 ∧
        (SharedFocalOptimizer3.GetSolution (fun x => x)
          { emptyOptimizer with problem_ := some p }).offset1 = samplePose.offset1 ∧
        (SharedFocalOptimizer3.GetSolution (fun x => x)
          { emptyOptimizer with problem_ := some p }).focal = samplePose.focal) :=
  have hz : sampleSizes.Positive := by simp [ResidualSizes.Positive, sampleSizes]
  ⟨rfl, hz, emptyOptimizer_inRange,
    solve_false_iff_no_residuals (fun x => x) [![1, 2, 1], ![3, 4, 1]]
      [![5, 6, 1], ![7, 8, 1]] [1, 2] [3, 4] [] [] [] ![1 / 2, 1 / 3] samplePose [1, 1]
      sampleConfig false 0 emptyOptimizer rfl sampleSizes hz emptyOptimizer_inRange⟩

/-- C2: for the optimizer constructed from an input pose, with `constant_pose` set, indices
in range, and pools that yield at least one residual block, `SetUp` marks both the quaternion
block and the translation block constant and attaches no manifold; hence with a minimiser that
leaves constant blocks at their values, every `Solve` leaves `qvec_` and `tvec_` at the values
the constructor took from the input pose, and `GetSolution` returns the translation of the
input pose.  When the cost functions have positive residual dimension and the solver options
are valid, `Solve` does run the minimiser and returns `true`. -/
theorem constant_pose_frozen [LinearOrderedField α] (sqrt : α → α)
    (x0 x1 : List (Fin 3 → α)) (depth0 depth1 : List α)
    (indices_reproj_0 indices_reproj_1 indices_sampson : List Int)
    (min_depth : Fin 2 → α) (pose : PoseScaleOffsetSharedFocal α) (uncert_weight : List α)
    (config : SharedFocalOptimizerConfig α L PO SO) (final : Bool) (summary : S)
    (o : SharedFocalOptimizer3 α L PO SO S)
    (ho : o = SharedFocalOptimizer3.new sqrt x0 x1 depth0 depth1 indices_reproj_0
      indices_reproj_1 indices_sampson min_depth pose uncert_weight config final summary)
    (sz : ResidualSizes) (ceres : CeresSolver α L PO SO S)
    (hconst : config.constant_pose = true)
    (hrange : o.IndicesInRange)
    (hblock : (config.use_reprojection = true ∧
        (indices_reproj_0 ≠ [] ∨ indices_reproj_1 ≠ [])) ∨
      (config.use_sampson = true ∧ indices_sampson ≠ []))
    (hceres : ceres.KeepsConstantBlocks) :
    ∃ p : Problem α L PO,
      o.SetUp = some { o with problem_ := some p } ∧
      0 < p.NumResidualBlocks ∧
      ParameterBlock.qvec_ ∈ p.constant_blocks ∧
      ParameterBlock.tvec_ ∈ p.constant_blocks ∧
      p.manifolds = [] ∧
      (∀ (flag : Bool) (o2 : SharedFocalOptimizer3 α L PO SO S),
        SharedFocalOptimizer3.Solve sz ceres { o with problem_ := some p } = some (flag, o2) →
        o2.qvec_ = RotationMatrixToQuaternion sqrt pose.R ∧ o2.tvec_ = pose.t ∧
          (SharedFocalOptimizer3.GetSolution sqrt o2).t = pose.t) ∧
      (sz.Positive ∧ ceres.IsValid { config.solver_options with
          linear_solver_type := .DENSE_QR, num_threads := 1 } = true →
        ∃ o2, SharedFocalOptimizer3.Solve sz ceres { o with problem_ := some p } =
          some (true, o2)) := by
  obtain ⟨p, hp, hblocks, -, -, hcb, hmf⟩ := SetUp_spec _ hrange
  have hcfg : o.config_ = config := by rw [ho]; rfl
  have hlen : 0 < p.residual_blocks.length := by
    have h1 := congrArg List.length hblocks
    rw [List.length_map, blocksPerIndex_length] at h1
    rw [h1, ho]
    simp only [SharedFocalOptimizer3.new]
    rcases hblock with ⟨hu, h0 | h0⟩ | ⟨hu, h0⟩
    · have := List.length_pos.2 h0
      simp only [hu, if_true]; omega
    · have := List.length_pos.2 h0
      simp only [hu, if_true]; omega
    · have := List.length_pos.2 h0
      simp only [hu, if_true]; omega
  have hc : o.config_.constant_pose = true := by rw [hcfg]; exact hconst
  rw [if_pos ⟨hlen, hc⟩] at hcb
  rw [if_neg (fun hh => hh.2 hc)] at hmf
  have hq : ParameterBlock.qvec_ ∈ p.constant_blocks := by rw [hcb]; simp
  have ht : ParameterBlock.tvec_ ∈ p.constant_blocks := by rw [hcb]; simp
  have hres : sz.Positive → p.NumResiduals sz ≠ 0 := by
    intro hsz
    obtain ⟨blk, rest, hbr⟩ := List.exists_cons_of_ne_nil (List.length_pos.1 hlen)
    have hpos : 0 < blk.cost_function.num_residuals sz := by
      unfold CostFunction.num_residuals
      cases blk.cost_function.family
      · exact hsz.1
      · exact hsz.2.1
      · exact hsz.2.2
    unfold Problem.NumResiduals
    rw [hbr]
    simp only [List.map_cons, List.sum_cons]
    omega
  have hqv : o.qvec_ = RotationMatrixToQuaternion sqrt pose.R := by rw [ho]; rfl
  have htv : o.tvec_ = pose.t := by rw [ho]; rfl
  refine ⟨p, hp, hlen, hq, ht, hmf, ?_, ?_⟩
  · intro flag o2 hs
    unfold SharedFocalOptimizer3.Solve at hs
    simp only at hs
    split at hs
    · cases hs
      exact ⟨hqv, htv, htv⟩
    split at hs
    · cases hs
      have kq := hceres { o.config_.solver_options with
          linear_solver_type := .DENSE_QR, num_threads := 1 } p
        (SharedFocalOptimizer3.values { o with problem_ := some p }) _ hq
      have kt := hceres { o.config_.solver_options with
          linear_solver_type := .DENSE_QR, num_threads := 1 } p
        (SharedFocalOptimizer3.values { o with problem_ := some p }) _ ht
      simp only [ParameterValues.block, SharedFocalOptimizer3.values,
        List.cons.injEq, and_true] at kq kt
      have hq2 : (ceres.Solve { o.config_.solver_options with
          linear_solver_type := .DENSE_QR, num_threads := 1 } p
          (SharedFocalOptimizer3.values { o with problem_ := some p })).1.qvec_ = o.qvec_ := by
        ext i
        fin_cases i
        · exact kq.1
        · exact kq.2.1
        · exact kq.2.2.1
        · exact kq.2.2.2
      have ht2 : (ceres.Solve { o.config_.solver_options with
          linear_solver_type := .DENSE_QR, num_threads := 1 } p
          (SharedFocalOptimizer3.values { o with problem_ := some p })).1.tvec_ = o.tvec_ := by
        ext i
        fin_cases i
        · exact kt.1
        · exact kt.2.1
        · exact kt.2.2
      simp only [SharedFocalOptimizer3.store, SharedFocalOptimizer3.GetSolution]
      rw [← hqv, ← htv]
      refine ⟨?_, ?_, ?_⟩
      · split
        · exact hq2
        · rfl
      · split
        · exact ht2
        · rfl
      · split
        · exact ht2
        · rfl
    · cases hs
  · rintro ⟨hsz, hv⟩
    rw [← hcfg] at hv
    unfold SharedFocalOptimizer3.Solve
    simp only [if_neg (hres hsz)]
    rw [if_pos hv]
    exact ⟨_, rfl⟩

/-- Witness of C2 on the sample optimizer and the sample minimiser. -/
theorem constant_pose_frozen_witness :
    (sampleOptimizer = SharedFocalOptimizer3.new (fun x => x) [![1, 2, 1], ![3, 4, 1]]
      [![5, 6, 1], ![7, 8, 1]] [1, 2] [3, 4] [0] [1] [0, 1] ![1 / 2, 1 / 3] samplePose [1, 1]
      sampleConfig false 0) ∧
    sampleConfig.constant_pose = true ∧ sampleOptimizer.IndicesInRange ∧
    ((sampleConfig.use_reprojection = true ∧ (([0] : List Int) ≠ [] ∨ ([1] : List Int) ≠ [])) ∨
      (sampleConfig.use_sampson = true ∧ ([0, 1] : List Int) ≠ [])) ∧
    sampleSolver.KeepsConstantBlocks ∧
    ∃ p : Problem ℚ Unit Unit,
      sampleOptimizer.SetUp = some { sampleOptimizer with problem_ := some p } ∧
      0 < p.NumResidualBlocks ∧
      ParameterBlock.qvec_ ∈ p.constant_blocks ∧
      ParameterBlock.tvec_ ∈ p.constant_blocks ∧
      p.manifolds = [] ∧
      (∀ (flag : Bool) (o2 : SharedFocalOptimizer3 ℚ Unit Unit Unit Nat),
        SharedFocalOptimizer3.Solve sampleSizes sampleSolver
          { sampleOptimizer with problem_ := some p } = some (flag, o2) →
        o2.qvec_ = RotationMatrixToQuaternion (fun x => x) samplePose.R ∧
          o2.tvec_ = samplePose.t ∧
          (SharedFocalOptimizer3.GetSolution (fun x => x) o2).t = samplePose.t) ∧
      (sampleSizes.Positive ∧ sampleSolver.IsValid { sampleConfig.solver_options with
          linear_solver_type := .DENSE_QR, num_threads := 1 } = true →
        ∃ o2, SharedFocalOptimizer3.Solve sampleSizes sampleSolver
          { sampleOptimizer with problem_ := some p } = some (true, o2)) :=
  have hb : (sampleConfig.use_reprojection = true ∧
      (([0] : List Int) ≠ [] ∨ ([1] : List Int) ≠ [])) ∨
      (sampleConfig.use_sampson = true ∧ ([0, 1] : List Int) ≠ []) :=
    Or.inl ⟨rfl, Or.inl (by simp)⟩
  ⟨rfl, rfl, sampleOptimizer_inRange, hb, sampleSolver_keeps_constant,
    constant_pose_frozen (fun x => x) [![1, 2, 1], ![3, 4, 1]] [![5, 6, 1], ![7, 8, 1]] [1, 2]
      [3, 4] [0] [1] [0, 1] ![1 / 2, 1 / 3] samplePose [1, 1] sampleConfig false 0
      sampleOptimizer rfl sampleSizes sampleSolver rfl sampleOptimizer_inRange hb
      sampleSolver_keeps_constant⟩

/-- C3: when the indices of the enabled pools are in range, then after `SetUp`, for every
configuration, each of `scale_`, `offset0_`, `offset1_` that belongs to some residual block of
the assembled problem carries its lower bound: the positive `1e-2` for the scale and
`-min_depth(0) + 1e-2`, `-min_depth(1) + 1e-2` for the offsets.  The parameter blocks of the
problem are exactly those of its residual blocks, and a member outside them is not changed
by `Solve`. -/
theorem setup_lower_bounds [LinearOrderedField α] (o : SharedFocalOptimizer3 α L PO SO S)
    (h : o.IndicesInRange) :
    ∃ p : Problem α L PO, o.SetUp = some { o with problem_ := some p } ∧
      (0 : α) < 1 / 100 ∧
      (∀ b, p.HasParameterBlock b = true ↔
        ∃ blk ∈ p.residual_blocks, b ∈ blk.parameter_blocks) ∧
      ((∃ blk ∈ p.residual_blocks, ParameterBlock.scale_ ∈ blk.parameter_blocks) →
        p.lowerBound .scale_ 0 = some (1 / 100)) ∧
      ((∃ blk ∈ p.residual_blocks, ParameterBlock.offset0_ ∈ blk.parameter_blocks) →
        p.lowerBound .offset0_ 0 = some (-o.min_depth_ 0 + 1 / 100)) ∧
      ((∃ blk ∈ p.residual_blocks, ParameterBlock.offset1_ ∈ blk.parameter_blocks) →
        p.lowerBound .offset1_ 0 = some (-o.min_depth_ 1 + 1 / 100)) ∧
      ∀ (sz : ResidualSizes) (ceres : CeresSolver α L PO SO S) (flag : Bool)
        (o2 : SharedFocalOptimizer3 α L PO SO S),
        SharedFocalOptimizer3.Solve sz ceres { o with problem_ := some p } = some (flag, o2) →
        ∀ b, (¬ ∃ blk ∈ p.residual_blocks, b ∈ blk.parameter_blocks) →
          o2.values.block b = o.values.block b := by
  obtain ⟨p, hp, -, hpb, hlb, -, -⟩ := SetUp_spec o h
  refine ⟨p, hp, by norm_num, ?_, ?_, ?_, ?_, ?_⟩
  · intro b
    rw [← hpb b]
    simp [Problem.HasParameterBlock]
  · intro hb
    have hm := (hpb _).2 hb
    unfold Problem.lowerBound
    rw [hlb]
    by_cases h1 : ParameterBlock.offset1_ ∈ p.parameter_blocks <;>
      by_cases h0 : ParameterBlock.offset0_ ∈ p.parameter_blocks <;>
      simp [h1, h0, hm, List.find?]
  · intro hb
    have hm := (hpb _).2 hb
    unfold Problem.lowerBound
    rw [hlb]
    by_cases h1 : ParameterBlock.offset1_ ∈ p.parameter_blocks <;>
      simp [h1, hm, List.find?]
  · intro hb
    have hm := (hpb _).2 hb
    unfold Problem.lowerBound
    rw [hlb]
    simp [hm, List.find?]
  · intro sz ceres flag o2 hs b hb
    have := solve_frame sz ceres _ o2 p flag rfl hs b (fun hm => hb ((hpb b).1 hm))
    simpa [SharedFocalOptimizer3.values] using this

/-- Witness of C3 on the sample optimizer. -/
theorem setup_lower_bounds_witness :
    sampleOptimizer.IndicesInRange ∧
    ∃ p : Problem ℚ Unit Unit,
      sampleOptimizer.SetUp = some { sampleOptimizer with problem_ := some p } ∧
      (0 : ℚ) < 1 / 100 ∧
      (∀ b, p.HasParameterBlock b = true ↔
        ∃ blk ∈ p.residual_blocks, b ∈ blk.parameter_blocks) ∧
      ((∃ blk ∈ p.residual_blocks, ParameterBlock.scale_ ∈ blk.parameter_blocks) →
        p.lowerBound .scale_ 0 = some (1 / 100)) ∧
      ((∃ blk ∈ p.residual_blocks, ParameterBlock.offset0_ ∈ blk.parameter_blocks) →
        p.lowerBound .offset0_ 0 = some (-sampleOptimizer.min_depth_ 0 + 1 / 100)) ∧
      ((∃ blk ∈ p.residual_blocks, ParameterBlock.offset1_ ∈ blk.parameter_blocks) →
        p.lowerBound .offset1_ 0 = some (-sampleOptimizer.min_depth_ 1 + 1 / 100)) ∧
      ∀ (sz : ResidualSizes) (ceres : CeresSolver ℚ Unit Unit Unit Nat) (flag : Bool)
        (o2 : SharedFocalOptimizer3 ℚ Unit Unit Unit Nat),
        SharedFocalOptimizer3.Solve sz ceres { sampleOptimizer with problem_ := some p } =
          some (flag, o2) →
        ∀ b, (¬ ∃ blk ∈ p.residual_blocks, b ∈ blk.parameter_blocks) →
          o2.values.block b = sampleOptimizer.values.block b :=
  ⟨sampleOptimizer_inRange, setup_lower_bounds sampleOptimizer sampleOptimizer_inRange⟩

/-- C4: when the indices of the enabled pools are in range, `SetUp` adds exactly one residual
block per entry of each enabled pool, the block of that entry: for every entry of
`indices_reproj_0_` a block over (offset0, rotation, translation, focal) and for every entry of
`indices_reproj_1_` a block over (scale, offset1, rotation, translation, focal) when
`use_reprojection` is set, for every entry of `indices_sampson_` a block over
(rotation, translation, focal) when `use_sampson` is set, and none for a disabled family; the
number of blocks is
`use_reprojection * (|reproj_0| + |reproj_1|) + use_sampson * |sampson|`. -/
theorem setup_one_block_per_index [Field α] (o : SharedFocalOptimizer3 α L PO SO S)
    (h : o.IndicesInRange) :
    ∃ p : Problem α L PO, o.SetUp = some { o with problem_ := some p } ∧
      p.residual_blocks.map some = blocksPerIndex o ∧
      p.residual_blocks.map ResidualBlock.shape =
        (if o.config_.use_reprojection then
          o.indices_reproj_0_.map (fun _ =>
            (ResidualFamily.reproj_0, [ParameterBlock.offset0_, .qvec_, .tvec_, .focal_])) ++
          o.indices_reproj_1_.map (fun _ =>
            (ResidualFamily.reproj_1,
              [ParameterBlock.scale_, .offset1_, .qvec_, .tvec_, .focal_]))
        else []) ++
        (if o.config_.use_sampson then
          o.indices_sampson_.map (fun _ =>
            (ResidualFamily.sampson, [ParameterBlock.qvec_, .tvec_, .focal_]))
        else []) ∧
      p.NumResidualBlocks =
        o.config_.use_reprojection.toNat *
            (o.indices_reproj_0_.length + o.indices_reproj_1_.length) +
          o.config_.use_sampson.toNat * o.indices_sampson_.length := by
  obtain ⟨p, hp, hblocks, -⟩ := SetUp_spec o h
  have hshape := blocksPerIndex_shapes o h
  rw [← hblocks, List.map_map] at hshape
  refine ⟨p, hp, hblocks, ?_, ?_⟩
  · apply List.map_injective_iff.2 (Option.some_injective _)
    rw [List.map_map]
    exact hshape
  · have hlen := congrArg List.length hshape
    simp only [List.length_map] at hlen
    unfold Problem.NumResidualBlocks
    rw [hlen]
    cases o.config_.use_reprojection <;> cases o.config_.use_sampson <;> simp [Nat.add_assoc]

/-- Witness of C4 on the sample optimizer. -/
theorem setup_one_block_per_index_witness :
    sampleOptimizer.IndicesInRange ∧
    ∃ p : Problem ℚ Unit Unit,
      sampleOptimizer.SetUp = some { sampleOptimizer with problem_ := some p } ∧
      p.residual_blocks.map some = blocksPerIndex sampleOptimizer ∧
      p.residual_blocks.map ResidualBlock.shape =
        (if sampleOptimizer.config_.use_reprojection then
          sampleOptimizer.indices_reproj_0_.map (fun _ =>
            (ResidualFamily.reproj_0, [ParameterBlock.offset0_, .qvec_, .tvec_, .focal_])) ++
          sampleOptimizer.indices_reproj_1_.map (fun _ =>
            (ResidualFamily.reproj_1,
              [ParameterBlock.scale_, .offset1_, .qvec_, .tvec_, .focal_]))
        else []) ++
        (if sampleOptimizer.config_.use_sampson then
          sampleOptimizer.indices_sampson_.map (fun _ =>
            (ResidualFamily.sampson, [ParameterBlock.qvec_, .tvec_, .focal_]))
        else []) ∧
      p.NumResidualBlocks =
        sampleOptimizer.config_.use_reprojection.toNat *
            (sampleOptimizer.indices_reproj_0_.length +
              sampleOptimizer.indices_reproj_1_.length) +
          sampleOptimizer.config_.use_sampson.toNat *
            sampleOptimizer.indices_sampson_.length :=
  ⟨sampleOptimizer_inRange, setup_one_block_per_index sampleOptimizer sampleOptimizer_inRange⟩

/-- C5: for every three-pool sample `(s0, s1, s2)` and every solver index, the three-pool
`MinimalSolver` returns exactly the return code and the models of the two-pool `MinimalSolver`
applied to the sample `(s0, s2)` with the same solver index and the same incoming models; its
result is the same for every content of the pool `s1`. -/
theorem minimal_solver3_delegates
    (base : HybridPoseSharedFocalEstimator α → List (List Int) → Int →
      List (PoseScaleOffsetSharedFocal α) → Int × List (PoseScaleOffsetSharedFocal α))
    (e : HybridPoseSharedFocalEstimator3 α) (s0 s1 s2 : List Int) (solver_idx : Int)
    (models : List (PoseScaleOffsetSharedFocal α)) :
    HybridPoseSharedFocalEstimator3.MinimalSolver base e [s0, s1, s2] solver_idx models =
      some (base e.toHybridPoseSharedFocalEstimator [s0, s2] solver_idx models) ∧
    ∀ t1 : List Int,
      HybridPoseSharedFocalEstimator3.MinimalSolver base e [s0, t1, s2] solver_idx models =
        HybridPoseSharedFocalEstimator3.MinimalSolver base e [s0, s1, s2] solver_idx models := by
  constructor
  · rfl
  · intro t1
    rfl

/-- C6: for every 3x3 matrix `R` and 3-vector `t`, `to_essential_matrix(R, t)` is the
cross-product matrix of `t` times `R`, where the cross-product matrix is skew-symmetric and
maps every vector `v` to `t × v`. -/
theorem to_essential_matrix_eq_cross_mul [CommRing α] (R : Matrix (Fin 3) (Fin 3) α)
    (t : Fin 3 → α) :
    to_essential_matrix R t = crossMatrixSpec t * R ∧
    (∀ v : Fin 3 → α, (crossMatrixSpec t).mulVec v = crossProduct t v) ∧
    (crossMatrixSpec t).transpose = -crossMatrixSpec t := by
  have hM : crossMatrixSpec t = !![0, -t 2, t 1; t 2, 0, -t 0; -t 1, t 0, 0] := by
    ext i j
    fin_cases i <;> fin_cases j <;> simp [crossMatrixSpec, cross_apply, Pi.single_apply]
  refine ⟨?_, ?_, ?_⟩
  · rw [hM]; rfl
  · intro v
    rw [hM]
    ext i
    fin_cases i <;>
      simp [cross_apply, Matrix.mulVec, Matrix.dotProduct, Fin.sum_univ_three] <;> ring
  · rw [hM]
    ext i j
    fin_cases i <;> fin_cases j <;> simp

/-- C7: for every matrix `E` and points `x1`, `x2`, `compute_sampson_error(x1, x2, E)` is the
first-order Sampson distance of the homogeneous points: the squared epipolar constraint
`(x2ᵀ E x1)²` over the sum of the squares of the first two components of `E x1` and of
`Eᵀ x2`. -/
theorem compute_sampson_error_eq_sampson_distance [Field α] (x1 x2 : Fin 2 → α)
    (E : Matrix (Fin 3) (Fin 3) α) :
    compute_sampson_error x1 x2 E = sampsonDistanceSpec x1 x2 E := by
  simp only [compute_sampson_error, sampsonDistanceSpec, homogeneous, Matrix.mulVec,
    Matrix.dotProduct, Fin.sum_univ_three, Matrix.transpose_apply]
  simp
  ring

/-- C8: over the reals, for every quaternion `q` (unit or not, zero included),
`QuaternionToRotationMatrix(q)` is the rotation matrix of the normalized quaternion and is
orthonormal with determinant one; `NormalizeQuaternion(q)` has unit norm; the zero quaternion
is normalized to `(1, 0, 0, 0)` and converted to the identity matrix. -/
theorem quaternion_to_rotation_orthonormal (q : Fin 4 → ℝ) :
    QuaternionToRotationMatrix Real.sqrt q =
      toRotationMatrix (NormalizeQuaternion Real.sqrt q 0) (NormalizeQuaternion Real.sqrt q 1)
        (NormalizeQuaternion Real.sqrt q 2) (NormalizeQuaternion Real.sqrt q 3) ∧
    (QuaternionToRotationMatrix Real.sqrt q).transpose *
      QuaternionToRotationMatrix Real.sqrt q = 1 ∧
    (QuaternionToRotationMatrix Real.sqrt q).det = 1 ∧
    norm Real.sqrt (NormalizeQuaternion Real.sqrt q) = 1 ∧
    NormalizeQuaternion Real.sqrt ![0, 0, 0, 0] = ![1, 0, 0, 0] ∧
    QuaternionToRotationMatrix Real.sqrt ![0, 0, 0, 0] = 1 := by
  have hu := squaredNorm_NormalizeQuaternion q
  have ho := toRotationMatrix_orthonormal (NormalizeQuaternion Real.sqrt q 0)
    (NormalizeQuaternion Real.sqrt q 1) (NormalizeQuaternion Real.sqrt q 2)
    (NormalizeQuaternion Real.sqrt q 3) hu
  have hz : NormalizeQuaternion Real.sqrt ![0, 0, 0, 0] = ![(1 : ℝ), 0, 0, 0] := by
    simp [NormalizeQuaternion, norm, squaredNorm]
  refine ⟨rfl, ho.1, ho.2, ?_, hz, ?_⟩
  · unfold norm
    rw [hu, Real.sqrt_one]
  · unfold QuaternionToRotationMatrix
    rw [hz, Matrix.one_fin_three]
    ext i j
    fin_cases i <;> fin_cases j <;> simp [toRotationMatrix]

/-- C9: over the reals, for every proper rotation matrix `R` (orthonormal, determinant one),
`QuaternionToRotationMatrix(RotationMatrixToQuaternion(R)) = R`; hence `GetSolution` of any
optimizer whose quaternion is still the one the constructor computed from the input pose
returns the rotation of the input pose. -/
theorem rotation_round_trip_get_solution (pose : PoseScaleOffsetSharedFocal ℝ)
    (h : IsProperRotation pose.R) :
    QuaternionToRotationMatrix Real.sqrt (RotationMatrixToQuaternion Real.sqrt pose.R) =
      pose.R ∧
    ∀ (x0 x1 : List (Fin 3 → ℝ)) (depth0 depth1 : List ℝ)
      (indices_reproj_0 indices_reproj_1 indices_sampson : List Int) (min_depth : Fin 2 → ℝ)
      (uncert_weight : List ℝ) (config : SharedFocalOptimizerConfig ℝ L PO SO) (final : Bool)
      (summary : S) (o : SharedFocalOptimizer3 ℝ L PO SO S),
      o.qvec_ = (SharedFocalOptimizer3.new Real.sqrt x0 x1 depth0 depth1 indices_reproj_0
        indices_reproj_1 indices_sampson min_depth pose uncert_weight config final
        summary).qvec_ →
      (SharedFocalOptimizer3.GetSolution Real.sqrt o).R = pose.R := by
  refine ⟨quaternion_round_trip pose.R h, ?_⟩
  intro x0 x1 depth0 depth1 r0 r1 s md uw config final summary o ho
  simp only [SharedFocalOptimizer3.GetSolution, ho, SharedFocalOptimizer3.new]
  exact quaternion_round_trip pose.R h

/-- Witness of C9 on the quarter turn about the third axis. -/
theorem rotation_round_trip_get_solution_witness :
    IsProperRotation quarterTurnPose.R ∧
    (QuaternionToRotationMatrix Real.sqrt
        (RotationMatrixToQuaternion Real.sqrt quarterTurnPose.R) = quarterTurnPose.R ∧
      ∀ (x0 x1 : List (Fin 3 → ℝ)) (depth0 depth1 : List ℝ)
        (indices_reproj_0 indices_reproj_1 indices_sampson : List Int)
        (min_depth : Fin 2 → ℝ) (uncert_weight : List ℝ)
        (config : SharedFocalOptimizerConfig ℝ Unit Unit Unit) (final : Bool)
        (summary : Unit) (o : SharedFocalOptimizer3 ℝ Unit Unit Unit Unit),
        o.qvec_ = (SharedFocalOptimizer3.new Real.sqrt x0 x1 depth0 depth1 indices_reproj_0
          indices_reproj_1 indices_sampson min_depth quarterTurnPose uncert_weight config
          final summary).qvec_ →
        (SharedFocalOptimizer3.GetSolution Real.sqrt o).R = quarterTurnPose.R) :=
  have hrot : IsProperRotation quarterTurnPose.R := by
    constructor
    · rw [Matrix.one_fin_three]
      ext i j
      simp only [Matrix.mul_apply, Matrix.transpose_apply, Fin.sum_univ_three]
      fin_cases i <;> fin_cases j <;> simp [quarterTurnPose, Matrix.vecHead, Matrix.vecTail]
    · simp [quarterTurnPose, Matrix.det_fin_three]
  ⟨hrot, rotation_round_trip_get_solution quarterTurnPose hrot⟩

/-- C10: the declared minimal sample sizes do not depend on the estimator's data or on the
incoming vector: the two-pool estimator declares the rows `[4, 0]` and `[0, 6]`, the
three-pool estimator the rows `[4, 4, 0]` and `[0, 0, 6]`; in both the number of rows is
`num_minimal_solvers()`, every row has `num_data_types()` entries, and
`solver_probabilities` has one entry per solver. -/
theorem min_sample_sizes_constant [One α] [Zero α] (e2 : HybridPoseSharedFocalEstimator α)
    (e3 : HybridPoseSharedFocalEstimator3 α) (v : List (List Int)) (pr : List α) :
    e2.min_sample_sizes v = some [[4, 0], [0, 6]] ∧
    e3.min_sample_sizes v = some [[4, 4, 0], [0, 0, 6]] ∧
    (e2.min_sample_sizes v).map
        (fun rows => ((rows.length : Int), rows.map fun row => (row.length : Int))) =
      some (e2.num_minimal_solvers, [e2.num_data_types, e2.num_data_types]) ∧
    (e3.min_sample_sizes v).map
        (fun rows => ((rows.length : Int), rows.map fun row => (row.length : Int))) =
      some (e3.num_minimal_solvers, [e3.num_data_types, e3.num_data_types]) ∧
    (e2.solver_probabilities pr).map (fun ps => (ps.length : Int)) =
      some e2.num_minimal_solvers ∧
    (e3.solver_probabilities pr).map (fun ps => (ps.length : Int)) =
      some e3.num_minimal_solvers := by
  have h2 : e2.min_sample_sizes v = some [[4, 0], [0, 6]] := by
    obtain ⟨a, b, hab⟩ := resize_two v ([] : List Int)
    simp [HybridPoseSharedFocalEstimator.min_sample_sizes, hab, setAt]
  have h3 : e3.min_sample_sizes v = some [[4, 4, 0], [0, 0, 6]] := by
    obtain ⟨a, b, hab⟩ := resize_two v ([] : List Int)
    simp [HybridPoseSharedFocalEstimator3.min_sample_sizes, hab, setAt]
  have hp : ∀ e : HybridPoseSharedFocalEstimator α, e.solver_probabilities pr = some [1, 1] := by
    intro e
    obtain ⟨a, b, hab⟩ := resize_two pr (0 : α)
    simp [HybridPoseSharedFocalEstimator.solver_probabilities, hab, setAt]
  refine ⟨h2, h3, ?_, ?_, ?_, ?_⟩
  · rw [h2]
    simp [HybridPoseSharedFocalEstimator.num_minimal_solvers,
      HybridPoseSharedFocalEstimator.num_data_types]
  · rw [h3]
    simp [HybridPoseSharedFocalEstimator3.num_minimal_solvers,
      HybridPoseSharedFocalEstimator.num_minimal_solvers,
      HybridPoseSharedFocalEstimator3.num_data_types]
  · rw [hp]
    simp [HybridPoseSharedFocalEstimator.num_minimal_solvers]
  · rw [HybridPoseSharedFocalEstimator3.solver_probabilities, hp]
    simp [HybridPoseSharedFocalEstimator3.num_minimal_solvers,
      HybridPoseSharedFocalEstimator.num_minimal_solvers]

/-- C11: for every matrix `R`, translation `t` and 3D point `X` such that `X` and `R X + t`
have non-zero third coordinate, the noise-free correspondence `x1 = X / X_z`,
`x2 = (R X + t) / (R X + t)_z` satisfies the epipolar constraint `x2ᵀ E x1 = 0` of
`E = to_essential_matrix(R, t)`; the local `C` of `compute_sampson_error` is that constraint,
so `compute_sampson_error(x1, x2, E) = 0` whenever its denominator `Cx + Cy` is non-zero. -/
theorem noise_free_correspondence_epipolar [Field α] (R : Matrix (Fin 3) (Fin 3) α)
    (t X : Fin 3 → α) (hX : X 2 ≠ 0) (hY : (R.mulVec X + t) 2 ≠ 0) :
    homogeneous (projectPoint X) = (fun i => X i / X 2) ∧
    homogeneous (projectPoint (R.mulVec X + t)) =
      (fun i => (R.mulVec X + t) i / (R.mulVec X + t) 2) ∧
    epipolarConstraint (projectPoint X) (projectPoint (R.mulVec X + t))
      (to_essential_matrix R t) = 0 ∧
    sampson_C (projectPoint X) (projectPoint (R.mulVec X + t)) (to_essential_matrix R t) = 0 ∧
    (sampson_Cx (projectPoint X) (to_essential_matrix R t) +
        sampson_Cy (projectPoint (R.mulVec X + t)) (to_essential_matrix R t) ≠ 0 →
      compute_sampson_error (projectPoint X) (projectPoint (R.mulVec X + t))
        (to_essential_matrix R t) = 0) := by
  have he := epipolarConstraint_projected R t X hX hY
  have hc : sampson_C (projectPoint X) (projectPoint (R.mulVec X + t))
      (to_essential_matrix R t) = 0 := by
    rw [sampson_C_eq_epipolarConstraint]; exact he
  refine ⟨?_, ?_, he, hc, ?_⟩
  · ext i
    fin_cases i
    · simp [homogeneous, projectPoint]
    · simp [homogeneous, projectPoint]
    · simp [homogeneous, projectPoint, div_self hX]
  · ext i
    fin_cases i
    · simp [homogeneous, projectPoint]
    · simp [homogeneous, projectPoint]
    · have := div_self hY
      simp only [homogeneous, projectPoint]
      simpa using this.symm
  · intro _
    rw [compute_sampson_error_eq_locals, hc]
    simp

/-- Witness of C11 on a quarter turn about the third axis. -/
theorem noise_free_correspondence_epipolar_witness :
    (samplePoint 2 ≠ 0 ∧ (quarterTurn.mulVec samplePoint + sampleTranslation) 2 ≠ 0) ∧
    (homogeneous (projectPoint samplePoint) = (fun i => samplePoint i / samplePoint 2) ∧
      homogeneous (projectPoint (quarterTurn.mulVec samplePoint + sampleTranslation)) =
        (fun i => (quarterTurn.mulVec samplePoint + sampleTranslation) i /
          (quarterTurn.mulVec samplePoint + sampleTranslation) 2) ∧
      epipolarConstraint (projectPoint samplePoint)
        (projectPoint (quarterTurn.mulVec samplePoint + sampleTranslation))
        (to_essential_matrix quarterTurn sampleTranslation) = 0 ∧
      sampson_C (projectPoint samplePoint)
        (projectPoint (quarterTurn.mulVec samplePoint + sampleTranslation))
        (to_essential_matrix quarterTurn sampleTranslation) = 0 ∧
      (sampson_Cx (projectPoint samplePoint)
          (to_essential_matrix quarterTurn sampleTranslation) +
        sampson_Cy (projectPoint (quarterTurn.mulVec samplePoint + sampleTranslation))
          (to_essential_matrix quarterTurn sampleTranslation) ≠ 0 →
        compute_sampson_error (projectPoint samplePoint)
          (projectPoint (quarterTurn.mulVec samplePoint + sampleTranslation))
          (to_essential_matrix quarterTurn sampleTranslation) = 0)) :=
  ⟨sampleProjection_depths,
    noise_free_correspondence_epipolar quarterTurn sampleTranslation samplePoint
      sampleProjection_depths.1 sampleProjection_depths.2⟩

/-- C12: `compute_sampson_error` divides `C * C` by `Cx + Cy` without testing the divisor.
The divisor is the sum of the squares of the first two components of `E x1` and of `Eᵀ x2`,
hence non-negative, and it is zero exactly when these four components vanish, which happens
(for instance for `E = 0`).  For every input with non-zero divisor the result is the quotient
(times the divisor it gives `C * C`), it is non-negative, and it is zero if and only if
`x2ᵀ E x1 = 0`. -/
theorem sampson_division_unguarded [LinearOrderedField α] (x1 x2 : Fin 2 → α)
    (E : Matrix (Fin 3) (Fin 3) α) :
    compute_sampson_error x1 x2 E =
      sampson_C x1 x2 E * sampson_C x1 x2 E / (sampson_Cx x1 E + sampson_Cy x2 E) ∧
    sampson_Cx x1 E + sampson_Cy x2 E =
      (E.mulVec (homogeneous x1) 0) ^ 2 + (E.mulVec (homogeneous x1) 1) ^ 2 +
        (E.transpose.mulVec (homogeneous x2) 0) ^ 2 +
        (E.transpose.mulVec (homogeneous x2) 1) ^ 2 ∧
    0 ≤ sampson_Cx x1 E + sampson_Cy x2 E ∧
    (sampson_Cx x1 E + sampson_Cy x2 E = 0 ↔
      E.mulVec (homogeneous x1) 0 = 0 ∧ E.mulVec (homogeneous x1) 1 = 0 ∧
        E.transpose.mulVec (homogeneous x2) 0 = 0 ∧
        E.transpose.mulVec (homogeneous x2) 1 = 0) ∧
    sampson_Cx x1 (0 : Matrix (Fin 3) (Fin 3) α) +
      sampson_Cy x2 (0 : Matrix (Fin 3) (Fin 3) α) = 0 ∧
    (sampson_Cx x1 E + sampson_Cy x2 E ≠ 0 →
      compute_sampson_error x1 x2 E * (sampson_Cx x1 E + sampson_Cy x2 E) =
        sampson_C x1 x2 E * sampson_C x1 x2 E ∧
      0 ≤ compute_sampson_error x1 x2 E ∧
      (compute_sampson_error x1 x2 E = 0 ↔ epipolarConstraint x1 x2 E = 0)) := by
  have hden := sampson_denominator_eq x1 x2 E
  have hnn : 0 ≤ sampson_Cx x1 E + sampson_Cy x2 E := by
    rw [hden]; positivity
  refine ⟨rfl, hden, hnn, ?_, ?_, ?_⟩
  · rw [hden]
    exact four_squares_eq_zero_iff _ _ _ _
  · simp [sampson_Cx, sampson_Cy]
  · intro hne
    rw [compute_sampson_error_eq_locals]
    refine ⟨div_mul_cancel₀ _ hne, ?_, ?_⟩
    · exact div_nonneg (mul_self_nonneg _) hnn
    · rw [div_eq_zero_iff, mul_self_eq_zero, sampson_C_eq_epipolarConstraint]
      constructor
      · rintro (h | h)
        · exact h
        · exact absurd h hne
      · intro h
        exact Or.inl h

end madpose
